import Mathlib

/-!
# Verification of the grss request-serving pipeline

Shallow embedding of the grss feed server's core (bounded in-memory cache,
parameter-transform middleware, feed renderers, and the middleware chain),
translated from the Go sources, together with proofs settling the frozen
claims about the specification.

Modelling conventions:
* A Go `time.Time` is modelled as an `Int` instant (seconds); the Go zero
  time is modelled by `0`, so `IsZero` becomes equality with `0`.
  `time.Now()` is passed explicitly as a `now` argument.
* Go maps keyed by strings are modelled as association lists whose list
  order stands for the (unspecified) map iteration order; theorems about
  iteration-order-dependent code quantify over that order.
* Fallible operations return `Except String`.
-/

set_option maxHeartbeats 1000000
set_option maxRecDepth 4096

namespace Grss

/-- An instant in time, in seconds.  The Go zero time is `0`. -/
abbrev Instant := Int

/-! ## cache/memory.go : the bounded in-memory cache -/

/-- Source: `cacheItem` in cache/memory.go. -/
structure cacheItem where
  value : String
  expiration : Instant
deriving Repr, DecidableEq

/-- Source: `MemoryCache` in cache/memory.go.  The `items` map is an
association list in iteration order. -/
structure MemoryCache where
  items : List (String × cacheItem)
  maxItems : Nat
deriving Repr, DecidableEq

/-- Lookup in the `items` map (`m.items[key]`). -/
def lookupItem : List (String × cacheItem) → String → Option cacheItem
  | [], _ => none
  | (k, it) :: rest, key => if k = key then some it else lookupItem rest key

/-- Map assignment `m.items[key] = it`: replace in place, or append. -/
def setAssoc : List (String × cacheItem) → String → cacheItem → List (String × cacheItem)
  | [], key, it => [(key, it)]
  | (k, old) :: rest, key, it =>
    if k = key then (key, it) :: rest else (k, old) :: setAssoc rest key it

/-- Map removal `delete(m.items, key)`. -/
def eraseKey : List (String × cacheItem) → String → List (String × cacheItem)
  | [], _ => []
  | (k, it) :: rest, key => if k = key then rest else (k, it) :: eraseKey rest key

/-- Source: `NewMemoryCache` in cache/memory.go (the background cleanup
goroutine is modelled separately as `MemoryCache.cleanup`). -/
def NewMemoryCache (maxItems : Nat) : MemoryCache :=
  { items := [], maxItems := maxItems }

/-- Source: `MemoryCache.Get` in cache/memory.go.  `time.Now().After(e)`
is `e < now`. -/
def MemoryCache.Get (m : MemoryCache) (key : String) (now : Instant) : Except String String :=
  match lookupItem m.items key with
  | none => .error "cache miss"
  | some item =>
    if item.expiration < now then .error "cache expired" else .ok item.value

/-- The scan inside `MemoryCache.evictOldest`: Go's
`for key, item := range m.items` loop with accumulator
`(oldestKey, oldestTime)`, starting from `("", zero)`. -/
def evictScan : List (String × cacheItem) → String × Instant → String × Instant
  | [], acc => acc
  | (key, item) :: rest, (oldestKey, oldestTime) =>
    if oldestKey = "" ∨ item.expiration < oldestTime then
      evictScan rest (key, item.expiration)
    else
      evictScan rest (oldestKey, oldestTime)

/-- Source: `MemoryCache.evictOldest` in cache/memory.go. -/
def MemoryCache.evictOldest (m : MemoryCache) : MemoryCache :=
  let res := evictScan m.items ("", 0)
  if res.1 ≠ "" then { m with items := eraseKey m.items res.1 } else m

/-- Source: `MemoryCache.Set` in cache/memory.go: evict first when
`len(m.items) >= m.maxItems`, then assign. -/
def MemoryCache.Set (m : MemoryCache) (key value : String) (ttl now : Instant) : MemoryCache :=
  let m1 := if m.maxItems ≤ m.items.length then m.evictOldest else m
  { m1 with items := setAssoc m1.items key { value := value, expiration := now + ttl } }

/-- Source: `MemoryCache.Delete` in cache/memory.go. -/
def MemoryCache.Delete (m : MemoryCache) (key : String) : MemoryCache :=
  { m with items := eraseKey m.items key }

/-- Source: one sweep cycle of `MemoryCache.cleanup` in cache/memory.go:
remove every item with `now.After(item.expiration)`. -/
def MemoryCache.cleanup (m : MemoryCache) (now : Instant) : MemoryCache :=
  { m with items := m.items.filter (fun p => ! decide (p.2.expiration < now)) }

/-- Well-formed cache states: keys are non-empty (the eviction scan uses
`""` as a sentinel), keys are distinct (map semantics), and the entry
count respects the bound. -/
def GoodCache (m : MemoryCache) : Prop :=
  (∀ p ∈ m.items, p.1 ≠ "") ∧ (m.items.map Prod.fst).Nodup ∧ m.items.length ≤ m.maxItems

/-! ### Association-list lemmas -/

theorem eraseKey_sublist (l : List (String × cacheItem)) (key : String) :
    (eraseKey l key).Sublist l := by
  induction l with
  | nil => simp [eraseKey]
  | cons p rest ih =>
    obtain ⟨k, it⟩ := p
    by_cases h : k = key
    · simp [eraseKey, h]
    · simpa [eraseKey, h] using ih.cons₂ (k, it)

theorem mem_of_mem_eraseKey {l : List (String × cacheItem)} {key : String}
    {p : String × cacheItem} (h : p ∈ eraseKey l key) : p ∈ l :=
  (eraseKey_sublist l key).mem h

theorem eraseKey_length {l : List (String × cacheItem)} {key : String}
    (h : key ∈ l.map Prod.fst) : (eraseKey l key).length + 1 = l.length := by
  induction l with
  | nil => simp at h
  | cons p rest ih =>
    obtain ⟨k, it⟩ := p
    by_cases hk : k = key
    · simp [eraseKey, hk]
    · have : key ∈ rest.map Prod.fst := by
        rcases List.mem_map.1 h with ⟨q, hq, hfst⟩
        rcases List.mem_cons.1 hq with rfl | hq'
        · exact absurd hfst hk
        · exact List.mem_map.2 ⟨q, hq', hfst⟩
      simp [eraseKey, hk, ih this]

theorem lookupItem_eraseKey_self {l : List (String × cacheItem)} {key : String}
    (h : (l.map Prod.fst).Nodup) : lookupItem (eraseKey l key) key = none := by
  induction l with
  | nil => simp [eraseKey, lookupItem]
  | cons p rest ih =>
    obtain ⟨k, it⟩ := p
    simp only [List.map_cons, List.nodup_cons] at h
    by_cases hk : k = key
    · subst hk
      cases hrest : lookupItem rest k with
      | none => simp [eraseKey, hrest]
      | some it' =>
        exfalso
        apply h.1
        clear ih h
        induction rest with
        | nil => simp [lookupItem] at hrest
        | cons q rs ih2 =>
          obtain ⟨k2, it2⟩ := q
          by_cases h2 : k2 = k
          · simp [h2]
          · simp only [lookupItem, if_neg h2] at hrest
            simpa using Or.inr (ih2 hrest)
    · simp [eraseKey, hk, lookupItem, ih h.2]

theorem setAssoc_length (l : List (String × cacheItem)) (key : String) (it : cacheItem) :
    (setAssoc l key it).length = if key ∈ l.map Prod.fst then l.length else l.length + 1 := by
  induction l with
  | nil => simp [setAssoc]
  | cons p rest ih =>
    obtain ⟨k, old⟩ := p
    by_cases hk : k = key
    · simp [setAssoc, hk]
    · have hne : ¬ key = k := fun h => hk h.symm
      by_cases hmem : key ∈ rest.map Prod.fst
      · simp [setAssoc, hk, ih, hmem, hne]
      · simp [setAssoc, hk, ih, hmem, hne]

theorem setAssoc_keys (l : List (String × cacheItem)) (key : String) (it : cacheItem) :
    ∀ p ∈ setAssoc l key it, p.1 = key ∨ p.1 ∈ l.map Prod.fst := by
  induction l with
  | nil => intro p hp; simp [setAssoc] at hp; simp [hp]
  | cons q rest ih =>
    obtain ⟨k, old⟩ := q
    intro p hp
    by_cases hk : k = key
    · simp only [setAssoc, if_pos hk] at hp
      rcases List.mem_cons.1 hp with rfl | hp'
      · simp
      · right
        simp only [List.map_cons]
        exact List.mem_cons.2 (Or.inr (List.mem_map.2 ⟨p, hp', rfl⟩))
    · simp only [setAssoc, if_neg hk] at hp
      rcases List.mem_cons.1 hp with rfl | hp'
      · right; simp
      · rcases ih p hp' with h | h
        · exact Or.inl h
        · right
          simp only [List.map_cons]
          exact List.mem_cons.2 (Or.inr h)

theorem setAssoc_nodup {l : List (String × cacheItem)} {key : String} {it : cacheItem}
    (h : (l.map Prod.fst).Nodup) : ((setAssoc l key it).map Prod.fst).Nodup := by
  induction l with
  | nil => simp [setAssoc]
  | cons q rest ih =>
    obtain ⟨k, old⟩ := q
    simp only [List.map_cons, List.nodup_cons] at h
    by_cases hk : k = key
    · rw [show setAssoc ((k, old) :: rest) key it = (key, it) :: rest by
        simp [setAssoc, hk]]
      simp only [List.map_cons, List.nodup_cons]
      rw [hk] at h
      exact ⟨h.1, h.2⟩
    · simp only [setAssoc, if_neg hk, List.map_cons, List.nodup_cons]
      refine ⟨?_, ih h.2⟩
      intro hmem
      rcases List.mem_map.1 hmem with ⟨p, hp, hfst⟩
      rcases setAssoc_keys rest key it p hp with h1 | h1
      · exact hk (by rw [← hfst, h1])
      · exact h.1 (by rw [← hfst]; exact List.mem_map.2 (by
          rcases List.mem_map.1 h1 with ⟨q2, hq2, hf2⟩
          exact ⟨q2, hq2, hf2⟩))

theorem lookupItem_setAssoc_ne {l : List (String × cacheItem)} {key k' : String}
    {it : cacheItem} (h : k' ≠ key) :
    lookupItem (setAssoc l key it) k' = lookupItem l k' := by
  have h1 : ¬ key = k' := fun hh => h hh.symm
  induction l with
  | nil => simp [setAssoc, lookupItem, h1]
  | cons q rest ih =>
    obtain ⟨k, old⟩ := q
    by_cases hk : k = key
    · have h2 : ¬ k = k' := by rw [hk]; exact h1
      simp [setAssoc, hk, lookupItem, h1, h2]
    · by_cases hk' : k = k'
      · simp [setAssoc, hk, lookupItem, hk', h]
      · simp [setAssoc, hk, lookupItem, hk', ih]

/-! ### The eviction scan selects a minimal-expiration entry
(when every key is non-empty) -/

theorem evictScan_spec :
    ∀ (l : List (String × cacheItem)) (k0 : String) (t0 : Instant),
      k0 ≠ "" → (∀ p ∈ l, p.1 ≠ "") →
      (evictScan l (k0, t0)).1 ≠ "" ∧
      (evictScan l (k0, t0)).2 ≤ t0 ∧
      (∀ p ∈ l, (evictScan l (k0, t0)).2 ≤ p.2.expiration) ∧
      (evictScan l (k0, t0) = (k0, t0) ∨
        ∃ it, ((evictScan l (k0, t0)).1, it) ∈ l ∧
          it.expiration = (evictScan l (k0, t0)).2) := by
  intro l
  induction l with
  | nil =>
    intro k0 t0 hk0 _
    refine ⟨hk0, le_refl _, ?_, Or.inl rfl⟩
    intro p hp; simp at hp
  | cons q rest ih =>
    intro k0 t0 hk0 hkeys
    obtain ⟨k, it⟩ := q
    have hkne : k ≠ "" := hkeys (k, it) (List.mem_cons_self _ _)
    have hkeys' : ∀ p ∈ rest, p.1 ≠ "" := fun p hp => hkeys p (List.mem_cons_of_mem _ hp)
    by_cases hlt : it.expiration < t0
    · have hcond : (k0 = "" ∨ it.expiration < t0) := Or.inr hlt
      have heq : evictScan ((k, it) :: rest) (k0, t0)
          = evictScan rest (k, it.expiration) := by
        simp [evictScan, hcond]
      obtain ⟨h1, h2, h3, h4⟩ := ih k it.expiration hkne hkeys'
      rw [heq]
      refine ⟨h1, le_trans h2 (le_of_lt hlt), ?_, ?_⟩
      · intro p hp
        rcases List.mem_cons.1 hp with rfl | hp'
        · exact h2
        · exact h3 p hp'
      · rcases h4 with h4 | ⟨it', hmem, hexp⟩
        · have hfst : (evictScan rest (k, it.expiration)).1 = k := by rw [h4]
          have hsnd : (evictScan rest (k, it.expiration)).2 = it.expiration := by rw [h4]
          right
          refine ⟨it, ?_, ?_⟩
          · rw [hfst]; exact List.mem_cons_self _ _
          · rw [hsnd]
        · exact Or.inr ⟨it', List.mem_cons_of_mem _ hmem, hexp⟩
    · have hcond : ¬ (k0 = "" ∨ it.expiration < t0) := by
        intro h; rcases h with h | h
        · exact hk0 h
        · exact hlt h
      have heq : evictScan ((k, it) :: rest) (k0, t0) = evictScan rest (k0, t0) := by
        simp [evictScan, hcond]
      obtain ⟨h1, h2, h3, h4⟩ := ih k0 t0 hk0 hkeys'
      rw [heq]
      refine ⟨h1, h2, ?_, ?_⟩
      · intro p hp
        rcases List.mem_cons.1 hp with rfl | hp'
        · exact le_trans h2 (not_lt.1 hlt)
        · exact h3 p hp'
      · rcases h4 with h4 | ⟨it', hmem, hexp⟩
        · exact Or.inl h4
        · exact Or.inr ⟨it', List.mem_cons_of_mem _ hmem, hexp⟩

theorem evictScan_from_start {l : List (String × cacheItem)}
    (hne : l ≠ []) (hkeys : ∀ p ∈ l, p.1 ≠ "") :
    ∃ it, ((evictScan l ("", 0)).1, it) ∈ l ∧
      (evictScan l ("", 0)).1 ≠ "" ∧
      (∀ p ∈ l, it.expiration ≤ p.2.expiration) := by
  cases l with
  | nil => exact absurd rfl hne
  | cons q rest =>
    obtain ⟨k, it⟩ := q
    have hkne : k ≠ "" := hkeys (k, it) (List.mem_cons_self _ _)
    have hkeys' : ∀ p ∈ rest, p.1 ≠ "" := fun p hp => hkeys p (List.mem_cons_of_mem _ hp)
    have heq : evictScan ((k, it) :: rest) ("", 0)
        = evictScan rest (k, it.expiration) := by
      simp [evictScan]
    obtain ⟨h1, h2, h3, h4⟩ := evictScan_spec rest k it.expiration hkne hkeys'
    rw [heq]
    rcases h4 with h4 | ⟨it', hmem, hexp⟩
    · have hfst : (evictScan rest (k, it.expiration)).1 = k := by rw [h4]
      have hsnd : (evictScan rest (k, it.expiration)).2 = it.expiration := by rw [h4]
      refine ⟨it, ?_, ?_, ?_⟩
      · rw [hfst]; exact List.mem_cons_self _ _
      · rw [hfst]; exact hkne
      · intro p hp
        rcases List.mem_cons.1 hp with rfl | hp'
        · exact le_refl _
        · have := h3 p hp'
          rw [hsnd] at this
          exact this
    · refine ⟨it', List.mem_cons_of_mem _ hmem, h1, ?_⟩
      intro p hp
      rcases List.mem_cons.1 hp with rfl | hp'
      · rw [hexp]; exact h2
      · rw [hexp]; exact h3 p hp'

theorem setAssoc_keys_ne {l : List (String × cacheItem)} {key : String} {it : cacheItem}
    (hkey : key ≠ "") (hkeys : ∀ p ∈ l, p.1 ≠ "") :
    ∀ p ∈ setAssoc l key it, p.1 ≠ "" := by
  intro p hp
  rcases setAssoc_keys l key it p hp with h | h
  · rw [h]; exact hkey
  · rcases List.mem_map.1 h with ⟨q, hq, hfst⟩
    rw [← hfst]; exact hkeys q hq

theorem eraseKey_keys_ne {l : List (String × cacheItem)} {key : String}
    (hkeys : ∀ p ∈ l, p.1 ≠ "") : ∀ p ∈ eraseKey l key, p.1 ≠ "" :=
  fun p hp => hkeys p (mem_of_mem_eraseKey hp)

theorem eraseKey_nodup {l : List (String × cacheItem)} {key : String}
    (h : (l.map Prod.fst).Nodup) : ((eraseKey l key).map Prod.fst).Nodup :=
  List.Nodup.sublist (List.Sublist.map Prod.fst (eraseKey_sublist l key)) h

theorem mem_keys_eraseKey_of_ne {l : List (String × cacheItem)} {key k' : String}
    (hne : k' ≠ key) (h : k' ∈ l.map Prod.fst) : k' ∈ (eraseKey l key).map Prod.fst := by
  induction l with
  | nil => simp at h
  | cons p rest ih =>
    obtain ⟨k, it⟩ := p
    simp only [List.map_cons, List.mem_cons] at h
    by_cases hk : k = key
    · rcases h with h | h
      · exact absurd (h.trans hk) hne
      · simp [eraseKey, hk, h]
    · rcases h with h | h
      · simp only [eraseKey, if_neg hk, List.map_cons, List.mem_cons]
        exact Or.inl h
      · simp only [eraseKey, if_neg hk, List.map_cons, List.mem_cons]
        exact Or.inr (ih h)

theorem evictOldest_items {m : MemoryCache}
    (h : (evictScan m.items ("", 0)).1 ≠ "") :
    m.evictOldest.items = eraseKey m.items (evictScan m.items ("", 0)).1 := by
  simp [MemoryCache.evictOldest, h]

theorem set_items_eq (m : MemoryCache) (key value : String) (ttl now : Instant) :
    (m.Set key value ttl now).items
      = if m.maxItems ≤ m.items.length
        then setAssoc m.evictOldest.items key { value := value, expiration := now + ttl }
        else setAssoc m.items key { value := value, expiration := now + ttl } := by
  by_cases h : m.maxItems ≤ m.items.length <;> simp [MemoryCache.Set, h]

theorem evictOldest_maxItems (m : MemoryCache) : m.evictOldest.maxItems = m.maxItems := by
  by_cases h : (evictScan m.items ("", 0)).1 = "" <;> simp [MemoryCache.evictOldest, h]

theorem set_maxItems_eq (m : MemoryCache) (key value : String) (ttl now : Instant) :
    (m.Set key value ttl now).maxItems = m.maxItems := by
  by_cases h : m.maxItems ≤ m.items.length <;>
    simp [MemoryCache.Set, h, evictOldest_maxItems]

instance decidableGoodCache (m : MemoryCache) : Decidable (GoodCache m) := by
  unfold GoodCache
  infer_instance

/-! ## Claim theorems for the bounded in-memory cache -/

/-- C1 counterexample: the claim as frozen is false on the code.  First run:
with capacity 1, setting the empty key and then another key leaves 2 resident
entries (the eviction scan treats the empty key as its not-yet-found sentinel
and evicts nothing).  Second run: with capacity 0, one Set leaves 1 > 0
resident entries (eviction on an empty store removes nothing). -/
theorem claim_C1_counterexample :
    (((NewMemoryCache 1).Set "" "v" 10 0).Set "x" "w" 10 0).items.length = 2 ∧
    ((NewMemoryCache 1).Set "" "v" 10 0).maxItems = 1 ∧
    ((NewMemoryCache 0).Set "a" "v" 10 0).items.length = 1 ∧
    (NewMemoryCache 0).maxItems = 0 := by decide

/-- C1 (amended): for a bounded cache with capacity at least 1, as long as
every key ever set is a non-empty string, Set preserves the invariant that
the number of resident entries never exceeds the capacity, and every Set that
runs while the store holds at least `maxItems` entries first removes a
resident entry whose expiration is earliest among all resident entries. -/
theorem claim_C1_amended
    (m : MemoryCache) (key value : String) (ttl now : Instant)
    (hmax : 1 ≤ m.maxItems) (hgood : GoodCache m) (hkey : key ≠ "") :
    GoodCache (m.Set key value ttl now) ∧
    (m.maxItems ≤ m.items.length →
      ∃ ek eit, (ek, eit) ∈ m.items ∧
        (∀ p ∈ m.items, eit.expiration ≤ p.2.expiration) ∧
        (m.Set key value ttl now).items
          = setAssoc (eraseKey m.items ek) key { value := value, expiration := now + ttl }) := by
  obtain ⟨hkeys, hnodup, hlen⟩ := hgood
  by_cases hcap : m.maxItems ≤ m.items.length
  · have hne : m.items ≠ [] := by
      intro h
      rw [h] at hcap
      simp at hcap
      omega
    obtain ⟨eit, hmem, hr1, hmin⟩ := evictScan_from_start hne hkeys
    have hitems : (m.Set key value ttl now).items
        = setAssoc (eraseKey m.items (evictScan m.items ("", 0)).1) key
            { value := value, expiration := now + ttl } := by
      rw [set_items_eq, if_pos hcap, evictOldest_items hr1]
    have hekmem : (evictScan m.items ("", 0)).1 ∈ m.items.map Prod.fst :=
      List.mem_map.2 ⟨_, hmem, rfl⟩
    have herlen : (eraseKey m.items (evictScan m.items ("", 0)).1).length + 1
        = m.items.length := eraseKey_length hekmem
    constructor
    · refine ⟨?_, ?_, ?_⟩
      · rw [hitems]
        exact setAssoc_keys_ne hkey (eraseKey_keys_ne hkeys)
      · rw [hitems]
        exact setAssoc_nodup (eraseKey_nodup hnodup)
      · rw [hitems, set_maxItems_eq, setAssoc_length]
        by_cases hk : key ∈ (eraseKey m.items (evictScan m.items ("", 0)).1).map Prod.fst <;>
          simp [hk] <;> omega
    · intro _
      exact ⟨_, eit, hmem, hmin, hitems⟩
  · have hlt : m.items.length < m.maxItems := lt_of_not_le hcap
    have hitems : (m.Set key value ttl now).items
        = setAssoc m.items key { value := value, expiration := now + ttl } := by
      rw [set_items_eq, if_neg hcap]
    refine ⟨⟨?_, ?_, ?_⟩, fun h => absurd h hcap⟩
    · rw [hitems]
      exact setAssoc_keys_ne hkey hkeys
    · rw [hitems]
      exact setAssoc_nodup hnodup
    · rw [hitems, set_maxItems_eq, setAssoc_length]
      by_cases hk : key ∈ m.items.map Prod.fst <;> simp [hk] <;> omega

/-- C1 witness: the amended theorem applied at a concrete full cache. -/
theorem claim_C1_witness :
    GoodCache ((⟨[("a", ⟨"va", 5⟩)], 1⟩ : MemoryCache).Set "b" "wb" 10 0) ∧
    ((⟨[("a", ⟨"va", 5⟩)], 1⟩ : MemoryCache).maxItems
        ≤ (⟨[("a", ⟨"va", 5⟩)], 1⟩ : MemoryCache).items.length →
      ∃ ek eit, (ek, eit) ∈ (⟨[("a", ⟨"va", 5⟩)], 1⟩ : MemoryCache).items ∧
        (∀ p ∈ (⟨[("a", ⟨"va", 5⟩)], 1⟩ : MemoryCache).items,
          eit.expiration ≤ p.2.expiration) ∧
        ((⟨[("a", ⟨"va", 5⟩)], 1⟩ : MemoryCache).Set "b" "wb" 10 0).items
          = setAssoc (eraseKey (⟨[("a", ⟨"va", 5⟩)], 1⟩ : MemoryCache).items ek) "b"
              { value := "wb", expiration := 0 + 10 }) :=
  claim_C1_amended _ "b" "wb" 10 0 (by decide) (by decide) (by decide)

/-- C2: Get reports an error both for an absent key and for a key whose
stored entry has an expiration instant strictly in the past at call time,
on any cache state whatsoever — in particular on states the background
sweep has never visited, since the state is unconstrained. -/
theorem claim_C2_get_miss_on_absent_or_expired
    (m : MemoryCache) (key : String) (now : Instant) :
    (lookupItem m.items key = none → m.Get key now = .error "cache miss") ∧
    (∀ it, lookupItem m.items key = some it → it.expiration < now →
      m.Get key now = .error "cache expired") := by
  constructor
  · intro h
    simp [MemoryCache.Get, h]
  · intro it h hexp
    simp [MemoryCache.Get, h, hexp]

/-- C2 witness: a stale entry (never swept) yields the expired error, and an
absent key yields the miss error, at concrete inputs. -/
theorem claim_C2_witness :
    (⟨[("k", ⟨"v", 5⟩)], 10⟩ : MemoryCache).Get "absent" 6 = .error "cache miss" ∧
    (⟨[("k", ⟨"v", 5⟩)], 10⟩ : MemoryCache).Get "k" 6 = .error "cache expired" :=
  ⟨(claim_C2_get_miss_on_absent_or_expired ⟨[("k", ⟨"v", 5⟩)], 10⟩ "absent" 6).1 (by decide),
   (claim_C2_get_miss_on_absent_or_expired ⟨[("k", ⟨"v", 5⟩)], 10⟩ "k" 6).2 ⟨"v", 5⟩
     (by decide) (by decide)⟩

/-- C10 counterexample: a Set at capacity does not always evict.  With the
empty string resident as a key (capacity 1), Set of a fresh key runs the
eviction branch but removes nothing: the old entry is still resident and the
store grows, so the frozen claim's "an eviction occurs" is false as stated. -/
theorem claim_C10_counterexample :
    (⟨[("", ⟨"v", 5⟩)], 1⟩ : MemoryCache).maxItems
        ≤ (⟨[("", ⟨"v", 5⟩)], 1⟩ : MemoryCache).items.length ∧
    lookupItem ((⟨[("", ⟨"v", 5⟩)], 1⟩ : MemoryCache).Set "x" "w" 10 0).items ""
        = some ⟨"v", 5⟩ ∧
    ((⟨[("", ⟨"v", 5⟩)], 1⟩ : MemoryCache).Set "x" "w" 10 0).items.length = 2 := by
  decide

/-- C10 (amended): on well-formed states with non-empty keys, every Set that
runs while the store holds at least `maxItems` entries performs the eviction
even when the key being set is already resident: an earliest-expiring
resident entry is removed before the insertion, so when that entry is not the
key being overwritten, an unrelated entry disappears and the store shrinks by
one. -/
theorem claim_C10_amended
    (m : MemoryCache) (key value : String) (ttl now : Instant)
    (hgood : GoodCache m) (hcap : m.maxItems ≤ m.items.length)
    (hres : key ∈ m.items.map Prod.fst) :
    ∃ ek eit, (ek, eit) ∈ m.items ∧
      (∀ p ∈ m.items, eit.expiration ≤ p.2.expiration) ∧
      (m.Set key value ttl now).items
        = setAssoc (eraseKey m.items ek) key { value := value, expiration := now + ttl } ∧
      (ek ≠ key →
        lookupItem (m.Set key value ttl now).items ek = none ∧
        (m.Set key value ttl now).items.length + 1 = m.items.length) := by
  obtain ⟨hkeys, hnodup, hlen⟩ := hgood
  have hne : m.items ≠ [] := by
    intro h
    rw [h] at hres
    simp at hres
  obtain ⟨eit, hmem, hr1, hmin⟩ := evictScan_from_start hne hkeys
  have hitems : (m.Set key value ttl now).items
      = setAssoc (eraseKey m.items (evictScan m.items ("", 0)).1) key
          { value := value, expiration := now + ttl } := by
    rw [set_items_eq, if_pos hcap, evictOldest_items hr1]
  have hekmem : (evictScan m.items ("", 0)).1 ∈ m.items.map Prod.fst :=
    List.mem_map.2 ⟨_, hmem, rfl⟩
  have herlen : (eraseKey m.items (evictScan m.items ("", 0)).1).length + 1
      = m.items.length := eraseKey_length hekmem
  refine ⟨_, eit, hmem, hmin, hitems, ?_⟩
  intro hnekey
  constructor
  · rw [hitems, lookupItem_setAssoc_ne hnekey, lookupItem_eraseKey_self hnodup]
  · have hkeymem : key ∈ (eraseKey m.items (evictScan m.items ("", 0)).1).map Prod.fst :=
      mem_keys_eraseKey_of_ne (fun h => hnekey h.symm) hres
    rw [hitems, setAssoc_length, if_pos hkeymem]
    omega

/-- C10 witness: overwriting the resident key "b" while the 2-slot cache is
full evicts the unrelated entry "a" (the earliest-expiring one) and shrinks
the store. -/
theorem claim_C10_witness :
    ∃ ek eit,
      (ek, eit) ∈ (⟨[("a", ⟨"va", 5⟩), ("b", ⟨"vb", 10⟩)], 2⟩ : MemoryCache).items ∧
      (∀ p ∈ (⟨[("a", ⟨"va", 5⟩), ("b", ⟨"vb", 10⟩)], 2⟩ : MemoryCache).items,
        eit.expiration ≤ p.2.expiration) ∧
      ((⟨[("a", ⟨"va", 5⟩), ("b", ⟨"vb", 10⟩)], 2⟩ : MemoryCache).Set "b" "nb" 100 0).items
        = setAssoc
            (eraseKey (⟨[("a", ⟨"va", 5⟩), ("b", ⟨"vb", 10⟩)], 2⟩ : MemoryCache).items ek)
            "b" { value := "nb", expiration := 0 + 100 } ∧
      (ek ≠ "b" →
        lookupItem
          ((⟨[("a", ⟨"va", 5⟩), ("b", ⟨"vb", 10⟩)], 2⟩ : MemoryCache).Set "b" "nb" 100 0).items
          ek = none ∧
        ((⟨[("a", ⟨"va", 5⟩), ("b", ⟨"vb", 10⟩)], 2⟩ : MemoryCache).Set "b" "nb" 100 0).items.length
            + 1
          = (⟨[("a", ⟨"va", 5⟩), ("b", ⟨"vb", 10⟩)], 2⟩ : MemoryCache).items.length) :=
  claim_C10_amended _ "b" "nb" 100 0 (by decide) (by decide) (by decide)

/-! ## feed/data.go : the feed data model -/

/-- Source: `Item` in feed/data.go (media/torrent sub-structures are not
referenced by any code under verification and are omitted). -/
structure Item where
  Title : String
  Link : String
  Description : String
  PubDate : Instant
  Updated : Instant
  Author : String
  Category : List String
  GUID : String
  Comments : String
  EnclosureURL : String
  EnclosureType : String
  EnclosureLength : Int
deriving Repr, DecidableEq, Inhabited

/-- Source: `Data` in feed/data.go (iTunes fields are not referenced by any
code under verification and are omitted). -/
structure Data where
  Title : String
  Link : String
  Description : String
  Language : String
  PubDate : Instant
  LastBuildDate : Instant
  TTL : Int
  AllowEmpty : Bool
  Item : List Grss.Item
  Author : String
  Image : String
  Icon : String
  Logo : String
  Subtitle : String
deriving Repr, DecidableEq, Inhabited

/-- An `Item` carrying only a title, a description and a publish date, all
other fields empty. -/
def mkItem (title desc : String) (pub : Instant) : Item :=
  { Title := title, Link := "", Description := desc, PubDate := pub, Updated := 0,
    Author := "", Category := [], GUID := "", Comments := "", EnclosureURL := "",
    EnclosureType := "", EnclosureLength := 0 }

/-! ## The Go sort package : sort.Slice (pdqsort)

Port of the sort-by-comparison-function code actually executed by
`sort.Slice` in the Go toolchain this repository builds with
(src/sort/zsortfunc.go, pattern-defeating quicksort).  The comparison
function observes the live slice, so it is modelled as a function of the
current array and two indices.  Go's loops are modelled with an explicit
fuel argument that is always chosen large enough at each call site. -/

namespace gosort

variable {α : Type}

/-- data.Swap on the slice (modelled as a list).  The sort package never
swaps out of range; out of range is modelled as the identity. -/
def swapL (l : List α) (i j : Nat) : List α :=
  match l.get? i, l.get? j with
  | some x, some y => (l.set i y).set j x
  | _, _ => l

/-- data.Less as a function of the live slice. -/
abbrev Less (α : Type) := List α → Nat → Nat → Bool

/-- bits.Len, by structural recursion on a 64-bit fuel (Go ints are 64-bit). -/
def bitsLenAux : Nat → Nat → Nat
  | 0, _ => 0
  | fuel+1, n => if n = 0 then 0 else bitsLenAux fuel (n / 2) + 1

/-- bits.Len. -/
def bitsLen (n : Nat) : Nat := bitsLenAux 64 n

/-- The xorshift pseudo-random step used by breakPatterns_func
(uint64 arithmetic). -/
def xorshiftNext (r : Nat) : Nat :=
  let r := (r ^^^ (r <<< 13)) % 2 ^ 64
  let r := r ^^^ (r >>> 7)
  (r ^^^ (r <<< 17)) % 2 ^ 64

/-- insertionSort_func inner shifting loop:
for j := i; j > a && data.Less(j, j-1); j--. -/
def insertionInner (less : Less α) : Nat → List α → Nat → Nat → List α
  | 0, arr, _, _ => arr
  | fuel+1, arr, j, lo =>
    match Nat.blt lo j && less arr j (j-1) with
    | true => insertionInner less fuel (swapL arr j (j-1)) (j-1) lo
    | false => arr

/-- insertionSort_func outer loop: for i := a+1; i < b; i++. -/
def insertionOuter (less : Less α) : Nat → List α → Nat → Nat → Nat → List α
  | 0, arr, _, _, _ => arr
  | fuel+1, arr, i, lo, hi =>
    match Nat.blt i hi with
    | true => insertionOuter less fuel (insertionInner less (i+1) arr i lo) (i+1) lo hi
    | false => arr

/-- insertionSort_func. -/
def insertionSort (less : Less α) (arr : List α) (lo hi : Nat) : List α :=
  insertionOuter less (hi+1) arr (lo+1) lo hi

/-- siftDown_func. -/
def siftDown (less : Less α) : Nat → List α → Nat → Nat → Nat → List α
  | 0, arr, _, _, _ => arr
  | fuel+1, arr, root, hi, first =>
    let child := 2*root + 1
    match Nat.ble hi child with
    | true => arr
    | false =>
      let child := match Nat.blt (child+1) hi && less arr (first+child) (first+child+1) with
        | true => child + 1
        | false => child
      match less arr (first+root) (first+child) with
      | false => arr
      | true => siftDown less fuel (swapL arr (first+root) (first+child)) child hi first

/-- heapSort_func first loop: for i := (hi-1)/2; i >= 0; i--. -/
def heapifyLoop (less : Less α) (hi first : Nat) : Nat → List α → List α
  | 0, arr => siftDown less (hi+1) arr 0 hi first
  | i+1, arr => heapifyLoop less hi first i (siftDown less (hi+1) arr (i+1) hi first)

/-- heapSort_func second loop body at index i: Swap(first, first+i) then
siftDown(data, 0, i, first); iterated for i := hi-1 down to 0. -/
def heapExtract (less : Less α) (first : Nat) : Nat → List α → List α
  | 0, arr => siftDown less 1 (swapL arr first first) 0 0 first
  | i+1, arr =>
    heapExtract less first i (siftDown less (i+2) (swapL arr first (first+i+1)) 0 (i+1) first)

/-- heapSort_func. -/
def heapSort (less : Less α) (arr : List α) (a b : Nat) : List α :=
  let first := a
  let hi := b - a
  let arr1 := heapifyLoop less hi first ((hi - 1) / 2) arr
  match hi with
  | 0 => arr1
  | _+1 => heapExtract less first (hi - 1) arr1

/-- reverseRange_func on [i, j]. -/
def revRange : Nat → List α → Nat → Nat → List α
  | 0, arr, _, _ => arr
  | fuel+1, arr, i, j =>
    match Nat.blt i j with
    | true => revRange fuel (swapL arr i j) (i+1) (j-1)
    | false => arr

/-- breakPatterns_func (three xorshift-driven swaps). -/
def breakPatterns (arr : List α) (a b : Nat) : List α :=
  let length := b - a
  match Nat.ble 8 length with
  | false => arr
  | true =>
    let modulus := 1 <<< bitsLen length
    let idx := a + (length / 4) * 2 - 1
    let r1 := xorshiftNext length
    let o1 := r1 &&& (modulus - 1)
    let o1 := match Nat.ble length o1 with
      | true => o1 - length
      | false => o1
    let arr := swapL arr (idx - 1) (a + o1)
    let r2 := xorshiftNext r1
    let o2 := r2 &&& (modulus - 1)
    let o2 := match Nat.ble length o2 with
      | true => o2 - length
      | false => o2
    let arr := swapL arr idx (a + o2)
    let r3 := xorshiftNext r2
    let o3 := r3 &&& (modulus - 1)
    let o3 := match Nat.ble length o3 with
      | true => o3 - length
      | false => o3
    swapL arr (idx + 1) (a + o3)

/-- The three-valued sortedness hint of choosePivot_func. -/
inductive SortedHint where
  | unknown
  | increasing
  | decreasing
deriving DecidableEq, Repr

/-- order2_func: returns the two indices in comparison order and the updated
swap counter. -/
def order2 (less : Less α) (arr : List α) (a b swaps : Nat) : Nat × Nat × Nat :=
  match less arr b a with
  | true => (b, a, swaps + 1)
  | false => (a, b, swaps)

/-- median_func. -/
def median (less : Less α) (arr : List α) (a b c swaps : Nat) : Nat × Nat :=
  match order2 less arr a b swaps with
  | (a1, b1, s1) =>
    match order2 less arr b1 c s1 with
    | (b2, _, s2) =>
      match order2 less arr a1 b2 s2 with
      | (_, b3, s3) => (b3, s3)

/-- medianAdjacent_func. -/
def medianAdjacent (less : Less α) (arr : List α) (a swaps : Nat) : Nat × Nat :=
  median less arr (a-1) a (a+1) swaps

/-- choosePivot_func. -/
def choosePivot (less : Less α) (arr : List α) (a b : Nat) : Nat × SortedHint :=
  let l := b - a
  let i0 := a + l / 4 * 1
  let j0 := a + l / 4 * 2
  let k0 := a + l / 4 * 3
  let (j, swaps) :=
    match Nat.ble 8 l with
    | true =>
      match Nat.ble 50 l with
      | true =>
        match medianAdjacent less arr i0 0 with
        | (i1, s1) =>
          match medianAdjacent less arr j0 s1 with
          | (j1, s2) =>
            match medianAdjacent less arr k0 s2 with
            | (k1, s3) => median less arr i1 j1 k1 s3
      | false =>
        median less arr i0 j0 k0 0
    | false => (j0, 0)
  match swaps with
  | 0 => (j, SortedHint.increasing)
  | 12 => (j, SortedHint.decreasing)
  | _ => (j, SortedHint.unknown)

/-- partition_func forward scan: for i <= j && data.Less(i, a) { i++ }. -/
def scanI (less : Less α) (arr : List α) (a j : Nat) : Nat → Nat → Nat
  | 0, i => i
  | fuel+1, i =>
    match Nat.ble i j && less arr i a with
    | true => scanI less arr a j fuel (i+1)
    | false => i

/-- partition_func backward scan: for i <= j && !data.Less(j, a) { j-- }. -/
def scanJ (less : Less α) (arr : List α) (a i : Nat) : Nat → Nat → Nat
  | 0, j => j
  | fuel+1, j =>
    match Nat.ble i j && ! less arr j a with
    | true => scanJ less arr a i fuel (j-1)
    | false => j

/-- partition_func main loop after the first crossing swap. -/
def partLoop (less : Less α) (a b : Nat) : Nat → List α → Nat → Nat → List α × Nat
  | 0, arr, _, j => (arr, j)
  | fuel+1, arr, i, j =>
    let i2 := scanI less arr a j (b+2) i
    let j2 := scanJ less arr a i2 (b+2) j
    match Nat.blt j2 i2 with
    | true => (arr, j2)
    | false => partLoop less a b fuel (swapL arr i2 j2) (i2+1) (j2-1)

/-- partition_func. -/
def partition (less : Less α) (arr0 : List α) (a b pivot : Nat) :
    List α × Nat × Bool :=
  let arr := swapL arr0 a pivot
  let i := a + 1
  let j := b - 1
  let i2 := scanI less arr a j (b+2) i
  let j2 := scanJ less arr a i2 (b+2) j
  match Nat.blt j2 i2 with
  | true => (swapL arr j2 a, j2, true)
  | false =>
    match partLoop less a b (b+2) (swapL arr i2 j2) (i2+1) (j2-1) with
    | (arr2, jf) => (swapL arr2 jf a, jf, false)

/-- partitionEqual_func forward scan: for i <= j && !data.Less(a, i) { i++ }. -/
def scanIEq (less : Less α) (arr : List α) (a j : Nat) : Nat → Nat → Nat
  | 0, i => i
  | fuel+1, i =>
    match Nat.ble i j && ! less arr a i with
    | true => scanIEq less arr a j fuel (i+1)
    | false => i

/-- partitionEqual_func backward scan: for i <= j && data.Less(a, j) { j-- }. -/
def scanJEq (less : Less α) (arr : List α) (a i : Nat) : Nat → Nat → Nat
  | 0, j => j
  | fuel+1, j =>
    match Nat.ble i j && less arr a j with
    | true => scanJEq less arr a i fuel (j-1)
    | false => j

/-- partitionEqual_func loop. -/
def partEqLoop (less : Less α) (a b : Nat) : Nat → List α → Nat → Nat → List α × Nat
  | 0, arr, i, _ => (arr, i)
  | fuel+1, arr, i, j =>
    let i2 := scanIEq less arr a j (b+2) i
    let j2 := scanJEq less arr a i2 (b+2) j
    match Nat.blt j2 i2 with
    | true => (arr, i2)
    | false => partEqLoop less a b fuel (swapL arr i2 j2) (i2+1) (j2-1)

/-- partitionEqual_func. -/
def partitionEqual (less : Less α) (arr0 : List α) (a b pivot : Nat) : List α × Nat :=
  let arr := swapL arr0 a pivot
  partEqLoop less a b (b+2) arr (a+1) (b-1)

/-- partialInsertionSort_func scan: for i < b && !data.Less(i, i-1) { i++ }. -/
def pisScan (less : Less α) (arr : List α) (b : Nat) : Nat → Nat → Nat
  | 0, i => i
  | fuel+1, i =>
    match Nat.blt i b && ! less arr i (i-1) with
    | true => pisScan less arr b fuel (i+1)
    | false => i

/-- partialInsertionSort_func downward shift: for j := i-1; j >= 1; j--. -/
def pisShiftDown (less : Less α) : Nat → List α → Nat → List α
  | 0, arr, _ => arr
  | fuel+1, arr, j =>
    match Nat.ble 1 j with
    | true =>
      match less arr j (j-1) with
      | false => arr
      | true => pisShiftDown less fuel (swapL arr j (j-1)) (j-1)
    | false => arr

/-- partialInsertionSort_func upward shift: for j := i+1; j < b; j++. -/
def pisShiftUp (less : Less α) (b : Nat) : Nat → List α → Nat → List α
  | 0, arr, _ => arr
  | fuel+1, arr, j =>
    match Nat.blt j b with
    | true =>
      match less arr j (j-1) with
      | false => arr
      | true => pisShiftUp less b fuel (swapL arr j (j-1)) (j+1)
    | false => arr

/-- partialInsertionSort_func: at most five misplaced elements are moved;
returns the (possibly modified) slice and whether the range ended sorted. -/
def pisLoop (less : Less α) (a b : Nat) : Nat → List α → Nat → List α × Bool
  | 0, arr, _ => (arr, false)
  | steps+1, arr, i =>
    let i2 := pisScan less arr b (b+2) i
    match Nat.beq i2 b with
    | true => (arr, true)
    | false =>
      match Nat.blt (b - a) 50 with
      | true => (arr, false)
      | false =>
        let arr := swapL arr i2 (i2-1)
        let arr := match Nat.ble 2 (i2 - a) with
          | true => pisShiftDown less (i2+1) arr (i2-1)
          | false => arr
        let arr := match Nat.ble 2 (b - i2) with
          | true => pisShiftUp less b (b+2) arr (i2+1)
          | false => arr
        pisLoop less a b steps arr i2

/-- pdqsort_func.  The Go outer for-loop is a tail call with the same fuel
budget position; a fresh recursive Go call resets wasBalanced and
wasPartitioned to true. -/
def pdqsortRec (less : Less α) : Nat → List α → Nat → Nat → Nat → Bool → Bool → List α
  | 0, arr, _, _, _, _, _ => arr
  | fuel+1, arr, a, b, limit, wasBalanced, wasPartitioned =>
    let length := b - a
    match Nat.ble length 12 with
    | true => insertionSort less arr a b
    | false =>
      match limit with
      | 0 => heapSort less arr a b
      | _+1 =>
        let arr1 := match wasBalanced with
          | false => breakPatterns arr a b
          | true => arr
        let limit1 := match wasBalanced with
          | false => limit - 1
          | true => limit
        match choosePivot less arr1 a b with
        | (pivot0, hint0) =>
          let arr2 := match hint0 with
            | SortedHint.decreasing => revRange (b+2) arr1 a (b-1)
            | _ => arr1
          let pivot1 := match hint0 with
            | SortedHint.decreasing => (b-1) - (pivot0 - a)
            | _ => pivot0
          let hint1 := match hint0 with
            | SortedHint.decreasing => SortedHint.increasing
            | _ => hint0
          let pis :=
            match wasBalanced, wasPartitioned, hint1 with
            | true, true, SortedHint.increasing => pisLoop less a b 5 arr2 (a+1)
            | _, _, _ => (arr2, false)
          match pis with
          | (arr3, true) => arr3
          | (arr3, false) =>
            match Nat.blt 0 a && ! less arr3 (a-1) pivot1 with
            | true =>
              match partitionEqual less arr3 a b pivot1 with
              | (arr4, mid) =>
                pdqsortRec less fuel arr4 mid b limit1 wasBalanced wasPartitioned
            | false =>
              match partition less arr3 a b pivot1 with
              | (arr4, mid, alreadyPartitioned) =>
                let leftLen := mid - a
                let rightLen := b - mid
                let balanceThreshold := length / 8
                let wasBalanced2 := Nat.ble balanceThreshold (min leftLen rightLen)
                match Nat.blt leftLen rightLen with
                | true =>
                  let arrL := pdqsortRec less fuel arr4 a mid limit1 true true
                  pdqsortRec less fuel arrL (mid+1) b limit1 wasBalanced2 alreadyPartitioned
                | false =>
                  let arrR := pdqsortRec less fuel arr4 (mid+1) b limit1 true true
                  pdqsortRec less fuel arrR a mid limit1 wasBalanced2 alreadyPartitioned

/-- sort.Slice: pdqsort_func(data, 0, length, limit) with
limit := bits.Len(uint(length)). -/
def sortSlice (less : Less α) (arr : List α) : List α :=
  let n := arr.length
  pdqsortRec less (2*n + 16) arr 0 n (bitsLen n) true true

end gosort

/-! ## middleware/parameter.go : query-parameter transforms -/

/-- The observable behavior of Go's regexp.Compile: either a match
predicate, or a compile failure.  The regexp package itself is outside this
repository, so the filter functions are parametric in it. -/
abbrev RegexEngine := String → Option (String → Bool)

/-- Unanchored substring occurrence test (pat occurs inside the text). -/
def occursIn (pat : List Char) : List Char → Bool
  | [] => pat.isEmpty
  | c :: rest => pat.isPrefixOf (c :: rest) || occursIn pat rest

/-- Modelled from the spec: the Go standard regexp package (regexp.Compile /
MatchString) is not part of this repository.  This executable instance
covers exactly the pattern shapes the spec exercises: a plain literal is an
unanchored substring match, a literal prefixed with the case-insensitivity
flag is a case-insensitive unanchored substring match, and a pattern
containing a metacharacter (such as the spec's unterminated bracket example)
fails to compile.  On these shapes it agrees with Go regexp semantics. -/
def goRegexModel : RegexEngine := fun pattern =>
  let pl := pattern.toList
  let ci := ['(', '?', 'i', ')'].isPrefixOf pl
  let body := if ci then pl.drop 4 else pl
  let isMeta : Char → Bool := fun c =>
    c = '(' || c = ')' || c = '[' || c = ']' || c = '\x7b' || c = '\x7d' ||
    c = '*' || c = '+' || c = '?' || c = '.' || c = '|' || c = '\\' ||
    c = '^' || c = '$'
  if body.any isMeta then none
  else if ci then
    some fun s => occursIn (body.map Char.toLower) (s.toList.map Char.toLower)
  else
    some fun s => occursIn body s.toList

/-- Source: `filterItems` in middleware/parameter.go. -/
def filterItems (compile : RegexEngine) (items : List Item) (pattern : String)
    (inverse : Bool) : List Item :=
  match compile pattern with
  | none => items
  | some re =>
    items.filter fun item =>
      let m := re item.Title || re item.Description
      if inverse then ! m else m

/-- Source: `filterByTitle` in middleware/parameter.go. -/
def filterByTitle (compile : RegexEngine) (items : List Item) (pattern : String)
    (inverse : Bool) : List Item :=
  match compile pattern with
  | none => items
  | some re =>
    items.filter fun item =>
      let m := re item.Title
      if inverse then ! m else m

/-- Source: `filterByDescription` in middleware/parameter.go. -/
def filterByDescription (compile : RegexEngine) (items : List Item) (pattern : String)
    (inverse : Bool) : List Item :=
  match compile pattern with
  | none => items
  | some re =>
    items.filter fun item =>
      let m := re item.Description
      if inverse then ! m else m

/-- strconv.Atoi: optional sign, at least one ASCII digit, nothing else,
64-bit range. -/
def goAtoi (s : String) : Option Int :=
  let chars := s.toList
  let (sign, digits) : Int × List Char :=
    match chars with
    | '+' :: rest => (1, rest)
    | '-' :: rest => (-1, rest)
    | l => (1, l)
  if digits.isEmpty then none
  else if digits.all (fun c => '0' ≤ c ∧ c ≤ '9') then
    let mag : Nat := digits.foldl (fun acc c => acc * 10 + (c.toNat - '0'.toNat)) 0
    let v : Int := sign * (mag : Int)
    if -(2 ^ 63) ≤ v ∧ v ≤ 2 ^ 63 - 1 then some v else none
  else none

/-- Source: `filterByTime` in middleware/parameter.go.
`item.PubDate.After(cutoff)` is `cutoff < PubDate`. -/
def filterByTime (items : List Item) (timeStr : String) (now : Instant) : List Item :=
  match goAtoi timeStr with
  | none => items
  | some seconds =>
    let cutoff := now - seconds
    items.filter fun item => decide (cutoff < item.PubDate)

/-- Source: `sortItems` in middleware/parameter.go: copy the slice, then
sort.Slice with a comparator on publish dates (After for "desc", Before
otherwise). -/
def sortItems (items : List Item) (order : String) : List Item :=
  let lessFn : gosort.Less Item := fun arr i j =>
    if order = "desc" then
      decide ((arr.getD j default).PubDate < (arr.getD i default).PubDate)
    else
      decide ((arr.getD i default).PubDate < (arr.getD j default).PubDate)
  gosort.sortSlice lessFn items

/-- The query parameters read by the Parameter middleware (empty string
means the parameter is absent, as in c.Query). -/
structure QueryParams where
  filter : String
  filterout : String
  filter_title : String
  filter_description : String
  filter_time : String
  sorted : String
  limit : String
deriving Repr, DecidableEq, Inhabited

/-- Query parameters all absent. -/
def noParams : QueryParams :=
  { filter := "", filterout := "", filter_title := "", filter_description := "",
    filter_time := "", sorted := "", limit := "" }

/-- Source: the post-continuation body of `Parameter` in
middleware/parameter.go: the fixed sequence of stages applied to
`data.Item`. -/
def applyTransforms (compile : RegexEngine) (q : QueryParams) (items0 : List Item)
    (now : Instant) : List Item :=
  let items := items0
  let items := if q.filter ≠ "" then filterItems compile items q.filter false else items
  let items := if q.filterout ≠ "" then filterItems compile items q.filterout true else items
  let items := if q.filter_title ≠ "" then
    filterByTitle compile items q.filter_title false else items
  let items := if q.filter_description ≠ "" then
    filterByDescription compile items q.filter_description false else items
  let items := if q.filter_time ≠ "" then filterByTime items q.filter_time now else items
  let items := if q.sorted ≠ "" then sortItems items q.sorted else items
  let items :=
    if q.limit ≠ "" then
      match goAtoi q.limit with
      | some lim =>
        if 0 < lim then
          if lim < (items.length : Int) then items.take lim.toNat else items
        else items
      | none => items
    else items
  items

/-- Stable insertion step for the reference sort: x is placed before the
first element not strictly below it, so equal keys keep their original
relative order. -/
def stableInsert (lt : Item → Item → Bool) (x : Item) : List Item → List Item
  | [] => [x]
  | y :: ys => if lt y x then y :: stableInsert lt x ys else x :: y :: ys

/-- Stable insertion sort used as the reference. -/
def stableSortCore (lt : Item → Item → Bool) : List Item → List Item
  | [] => []
  | x :: xs => stableInsert lt x (stableSortCore lt xs)

/-- The sort the spec's words describe: a stable sort by publish time in the
requested direction (reference definition, written from the spec, to be
compared with the source-derived `sortItems`). -/
def sortItemsStable (items : List Item) (order : String) : List Item :=
  let lt : Item → Item → Bool := fun y x =>
    if order = "desc" then decide (x.PubDate < y.PubDate)
    else decide (y.PubDate < x.PubDate)
  stableSortCore lt items

/-! ## Claim theorems for the parameter transforms -/

/-- A 13-entry list (long enough that sort.Slice leaves its insertion-sort
regime) in which entries t1 and t3 share publish time 1, with t1 first. -/
def unstableItems : List Item :=
  [mkItem "t0" "" 3, mkItem "t1" "" 1, mkItem "t2" "" 4, mkItem "t3" "" 1,
   mkItem "t4" "" 5, mkItem "t5" "" 9, mkItem "t6" "" 2, mkItem "t7" "" 6,
   mkItem "t8" "" 5, mkItem "t9" "" 3, mkItem "t10" "" 5, mkItem "t11" "" 8,
   mkItem "t12" "" 9]

/-- C7 counterexample: the sort stage is not stable.  On `unstableItems`,
ascending sort by publish time emits t3 before t1 although both have publish
time 1 and t1 preceded t3 in the input; the stable reference sort keeps
t1 first.  (Go's sort.Slice is pattern-defeating quicksort, and its
partitioning reorders equal keys once the slice is longer than the
12-element insertion-sort cutoff.) -/
theorem claim_C7_counterexample :
    (sortItems unstableItems "asc").map Item.Title
      = ["t3", "t1", "t6", "t0", "t9", "t2", "t4", "t8", "t10", "t7", "t11", "t5", "t12"] ∧
    (sortItemsStable unstableItems "asc").map Item.Title
      = ["t1", "t3", "t6", "t0", "t9", "t2", "t4", "t8", "t10", "t7", "t11", "t5", "t12"] ∧
    sortItems unstableItems "asc" ≠ sortItemsStable unstableItems "asc" ∧
    (unstableItems.map fun it => (it.Title, it.PubDate)).take 4
      = [("t0", 3), ("t1", 1), ("t2", 4), ("t3", 1)] := by
  refine ⟨by decide, by decide, ?_, by decide⟩
  decide

/-- C7 (amended): the transform stages apply in the fixed order
include-filter, exclude-filter, title filter, description filter, freshness
filter, sort, limit; the sort orders by publish time in the requested
direction but is Go's sort.Slice and therefore not guaranteed stable; the
limit stage truncates to the first N entries after sorting.  Both spec
examples hold: filter (?i)bug on titles Bug A / Feature B / Bug C yields
exactly Bug A, Bug C in original order, and filterout (?i)bug with
sorted=desc and limit=1 on entries timestamped T, T+1h, T-1h yields exactly
the T+1h entry. -/
theorem claim_C7_amended :
    (applyTransforms goRegexModel { noParams with filter := "(?i)bug" }
        [mkItem "Bug A" "" 1, mkItem "Feature B" "" 2, mkItem "Bug C" "" 3] 0).map Item.Title
      = ["Bug A", "Bug C"] ∧
    applyTransforms goRegexModel
        { noParams with filterout := "(?i)bug", sorted := "desc", limit := "1" }
        [mkItem "A" "" 100, mkItem "B" "" 3700, mkItem "C" "" (-3500)] 0
      = [mkItem "B" "" 3700] ∧
    (∀ (compile : RegexEngine) (items : List Item) (now : Instant)
        (limitStr : String) (n : Int),
      goAtoi limitStr = some n → 0 < n → n < (items.length : Int) →
      applyTransforms compile { noParams with limit := limitStr } items now
        = items.take n.toNat) ∧
    (sortItems [mkItem "A" "" 100, mkItem "B" "" 3700, mkItem "C" "" (-3500)] "desc").map
        Item.Title = ["B", "A", "C"] ∧
    (sortItems [mkItem "A" "" 100, mkItem "B" "" 3700, mkItem "C" "" (-3500)] "asc").map
        Item.Title = ["C", "A", "B"] := by
  refine ⟨by decide, by decide, ?_, by decide, by decide⟩
  intro compile items now limitStr n hlim hn hlen
  have hne : limitStr ≠ "" := by
    intro h
    rw [h] at hlim
    simp [goAtoi] at hlim
  simp [applyTransforms, noParams, hne, hlim, hn, hlen]

/-- C7 witness: the limit stage instantiated at a concrete three-entry list
with limit 2. -/
theorem claim_C7_witness :
    applyTransforms goRegexModel { noParams with limit := "2" }
        [mkItem "A" "" 1, mkItem "B" "" 2, mkItem "C" "" 3] 0
      = [mkItem "A" "" 1, mkItem "B" "" 2] :=
  (claim_C7_amended.2.2.1 goRegexModel
      [mkItem "A" "" 1, mkItem "B" "" 2, mkItem "C" "" 3] 0 "2" 2
      (by decide) (by decide) (by decide)).trans (by decide)

/-- C8: an invalid regex makes each regex filter stage the identity, an
invalid numeric filter_time makes the freshness stage the identity, and
inside the full transform chain an uncompilable include-filter behaves
exactly as if the parameter were absent, with all other stages still
applied. -/
theorem claim_C8_invalid_input_degrades_to_noop
    (compile : RegexEngine) (pattern timeStr : String) (items : List Item)
    (inverse : Bool) (now : Instant) (q : QueryParams)
    (hre : compile pattern = none) (hnum : goAtoi timeStr = none)
    (hq : compile q.filter = none) :
    filterItems compile items pattern inverse = items ∧
    filterByTitle compile items pattern inverse = items ∧
    filterByDescription compile items pattern inverse = items ∧
    filterByTime items timeStr now = items ∧
    applyTransforms compile q items now
      = applyTransforms compile { q with filter := "" } items now := by
  refine ⟨by simp [filterItems, hre], by simp [filterByTitle, hre],
    by simp [filterByDescription, hre], by simp [filterByTime, hnum], ?_⟩
  have h1 : (if q.filter ≠ "" then filterItems compile items q.filter false else items)
      = items := by
    by_cases h : q.filter = ""
    · simp [h]
    · simp [h, filterItems, hq]
  simp only [applyTransforms]
  rw [h1]
  simp

/-- C8 witness: the no-op degradation at the spec's concrete invalid inputs,
with the limit stage still applied around the failed filter. -/
theorem claim_C8_witness :
    filterItems goRegexModel [mkItem "X" "d" 5] "[invalid(" false = [mkItem "X" "d" 5] ∧
    filterByTitle goRegexModel [mkItem "X" "d" 5] "[invalid(" false = [mkItem "X" "d" 5] ∧
    filterByDescription goRegexModel [mkItem "X" "d" 5] "[invalid(" false
      = [mkItem "X" "d" 5] ∧
    filterByTime [mkItem "X" "d" 5] "xyz" 99 = [mkItem "X" "d" 5] ∧
    applyTransforms goRegexModel
        { noParams with filter := "[invalid(", limit := "1" } [mkItem "X" "d" 5] 99
      = applyTransforms goRegexModel { noParams with limit := "1" } [mkItem "X" "d" 5] 99 := by
  have h := claim_C8_invalid_input_degrades_to_noop goRegexModel "[invalid(" "xyz"
    [mkItem "X" "d" 5] false 99 { noParams with filter := "[invalid(", limit := "1" }
    (by rfl) (by rfl) (by rfl)
  exact ⟨h.1, h.2.1, h.2.2.1, h.2.2.2.1, h.2.2.2.2⟩

/-! ## Time formatting (Go time.Time.Format for the two layouts used)

An `Instant` is Unix seconds; formatting uses the proleptic Gregorian
calendar in UTC, as Go's `t.UTC().Format` does. -/

/-- Civil date (year, month 1-12, day 1-31) from days since 1970-01-01. -/
def civilFromDays (days : Int) : Int × Nat × Nat :=
  let z := days + 719468
  let era := (if 0 ≤ z then z else z - 146096) / 146097
  let doe := (z - era * 146097).toNat
  let yoe := (doe - doe / 1460 + doe / 36524 - doe / 146096) / 365
  let y : Int := (yoe : Int) + era * 400
  let doy := doe - (365 * yoe + yoe / 4 - yoe / 100)
  let mp := (5 * doy + 2) / 153
  let d := doy - (153 * mp + 2) / 5 + 1
  let m := if mp < 10 then mp + 3 else mp - 9
  (if m ≤ 2 then y + 1 else y, m, d)

/-- Two-digit zero padding. -/
def pad2 (n : Nat) : String :=
  if n < 10 then "0" ++ toString n else toString n

/-- Month abbreviations as in Go's time package. -/
def monthAbbrev (m : Nat) : String :=
  ["Jan", "Feb", "Mar", "Apr", "May", "Jun",
   "Jul", "Aug", "Sep", "Oct", "Nov", "Dec"].getD (m - 1) "?"

/-- Weekday abbreviations, indexed with 0 = Sunday. -/
def weekdayAbbrev (w : Nat) : String :=
  ["Sun", "Mon", "Tue", "Wed", "Thu", "Fri", "Sat"].getD w "?"

/-- Source: `formatRFC3339` in feed/atom.go:
t.UTC().Format(time.RFC3339). -/
def formatRFC3339 (t : Instant) : String :=
  let days := t.ediv 86400
  let secs := (t.emod 86400).toNat
  let (y, m, d) := civilFromDays days
  toString y ++ "-" ++ pad2 m ++ "-" ++ pad2 d ++ "T" ++
    pad2 (secs / 3600) ++ ":" ++ pad2 (secs / 60 % 60) ++ ":" ++ pad2 (secs % 60) ++ "Z"

/-- Source: `formatRFC822` in feed/rss.go:
t.UTC().Format(time.RFC1123Z). -/
def formatRFC822 (t : Instant) : String :=
  let days := t.ediv 86400
  let secs := (t.emod 86400).toNat
  let (y, m, d) := civilFromDays days
  let wd := ((days + 4).emod 7).toNat
  weekdayAbbrev wd ++ ", " ++ pad2 d ++ " " ++ monthAbbrev m ++ " " ++ toString y ++ " " ++
    pad2 (secs / 3600) ++ ":" ++ pad2 (secs / 60 % 60) ++ ":" ++ pad2 (secs % 60) ++ " +0000"

/-! ## encoding/xml and encoding/json output shapes

The two marshalers are Go standard library collaborators; what follows
implements their documented output (MarshalIndent with prefix "" and indent
two spaces) for exactly the struct shapes the feed package declares. -/

/-- xml.EscapeText character escaping. -/
def xmlEscapeChar (c : Char) : String :=
  if c = '&' then "&amp;"
  else if c = '<' then "&lt;"
  else if c = '>' then "&gt;"
  else if c = '"' then "&#34;"
  else if c = '\'' then "&#39;"
  else if c = '\t' then "&#x9;"
  else if c = '\n' then "&#xA;"
  else if c = '\r' then "&#xD;"
  else String.singleton c

/-- xml escaping of character data and attribute values. -/
def xmlEscape (s : String) : String :=
  String.join (s.toList.map xmlEscapeChar)

/-- Body of a CDATA section: a literal "]]>" is split across sections, as
encoding/xml's emitCDATA does. -/
def cdataBody : List Char → String
  | [] => ""
  | ']' :: ']' :: '>' :: rest => "]]]]><![CDATA[>" ++ cdataBody rest
  | c :: rest => String.singleton c ++ cdataBody rest

/-- encoding/xml emitCDATA: empty data emits nothing at all. -/
def emitCDATA (s : String) : String :=
  if s = "" then ""
  else "<![CDATA[" ++ cdataBody s.toList ++ "]]>"

/-- One XML line: an element with character data content. -/
def xmlLeaf (ind name value : String) : String :=
  ind ++ "<" ++ name ++ ">" ++ xmlEscape value ++ "</" ++ name ++ ">"

/-- One XML line: an element whose content is a CDATA section. -/
def xmlCDataLeaf (ind name value : String) : String :=
  ind ++ "<" ++ name ++ ">" ++ emitCDATA value ++ "</" ++ name ++ ">"

/-- An attribute rendering " name=\x22value\x22". -/
def xmlAttr (name value : String) : String :=
  " " ++ name ++ "=\"" ++ xmlEscape value ++ "\""

/-- xml.Header. -/
def xmlHeader : String := "<?xml version=\"1.0\" encoding=\"UTF-8\"?>\n"

/-! ## feed/rss.go : RSS 2.0 renderer -/

/-- Source: `AtomLink` in feed/rss.go. -/
structure AtomLink where
  Href : String
  Rel : String
  Typ : String
deriving Repr, DecidableEq

/-- Source: `Image` in feed/rss.go. -/
structure Image where
  URL : String
  Title : String
  Link : String
deriving Repr, DecidableEq

/-- Source: `GUID` in feed/rss.go (chardata value plus omitempty bool
attribute). -/
structure GUID where
  Value : String
  IsPermaLink : Bool
deriving Repr, DecidableEq

/-- Source: `Enclosure` in feed/rss.go. -/
structure Enclosure where
  URL : String
  Typ : String
  Length : Int
deriving Repr, DecidableEq

/-- Source: `RSSItem` in feed/rss.go.  `Description` holds the CDATA value;
`Content` holds the content:encoded CDATA value when present. -/
structure RSSItem where
  Title : String
  Link : String
  Description : String
  PubDate : String
  GUID : Option Grss.GUID
  Author : String
  Category : List String
  Comments : String
  Enclosure : Option Grss.Enclosure
  Content : Option String
deriving Repr, DecidableEq

/-- Source: `Channel` in feed/rss.go. -/
structure Channel where
  Title : String
  Link : String
  Description : String
  Language : String
  PubDate : String
  LastBuildDate : String
  TTL : Int
  AtomLink : Option Grss.AtomLink
  Image : Option Grss.Image
  Items : List RSSItem
deriving Repr, DecidableEq

/-- Source: `RSS` in feed/rss.go. -/
structure RSS where
  Version : String
  AtomNS : String
  Content : String
  MediaNS : String
  Channel : Grss.Channel
deriving Repr, DecidableEq

/-- encoding/xml MarshalIndent lines for one RSSItem (field order; omitempty
strings, pointers and slices are skipped; `description` is always present). -/
def rssItemLines (it : RSSItem) : List String :=
  ["    <item>"]
  ++ [xmlLeaf "      " "title" it.Title]
  ++ [xmlLeaf "      " "link" it.Link]
  ++ [xmlCDataLeaf "      " "description" it.Description]
  ++ (if it.PubDate ≠ "" then [xmlLeaf "      " "pubDate" it.PubDate] else [])
  ++ (match it.GUID with
      | some g =>
        ["      <guid" ++ (if g.IsPermaLink then xmlAttr "isPermaLink" "true" else "")
          ++ ">" ++ xmlEscape g.Value ++ "</guid>"]
      | none => [])
  ++ (if it.Author ≠ "" then [xmlLeaf "      " "author" it.Author] else [])
  ++ it.Category.map (fun c => xmlLeaf "      " "category" c)
  ++ (if it.Comments ≠ "" then [xmlLeaf "      " "comments" it.Comments] else [])
  ++ (match it.Enclosure with
      | some e =>
        ["      <enclosure" ++ xmlAttr "url" e.URL ++ xmlAttr "type" e.Typ
          ++ xmlAttr "length" (toString e.Length) ++ "></enclosure>"]
      | none => [])
  ++ (match it.Content with
      | some c => [xmlCDataLeaf "      " "content:encoded" c]
      | none => [])
  ++ ["    </item>"]

/-- encoding/xml MarshalIndent lines for the channel element. -/
def channelLines (ch : Grss.Channel) : List String :=
  ["  <channel>"]
  ++ [xmlLeaf "    " "title" ch.Title]
  ++ [xmlLeaf "    " "link" ch.Link]
  ++ [xmlLeaf "    " "description" ch.Description]
  ++ (if ch.Language ≠ "" then [xmlLeaf "    " "language" ch.Language] else [])
  ++ (if ch.PubDate ≠ "" then [xmlLeaf "    " "pubDate" ch.PubDate] else [])
  ++ (if ch.LastBuildDate ≠ "" then [xmlLeaf "    " "lastBuildDate" ch.LastBuildDate] else [])
  ++ (if ch.TTL ≠ 0 then [xmlLeaf "    " "ttl" (toString ch.TTL)] else [])
  ++ (match ch.AtomLink with
      | some l =>
        ["    <atom:link" ++ xmlAttr "href" l.Href ++ xmlAttr "rel" l.Rel
          ++ xmlAttr "type" l.Typ ++ "></atom:link>"]
      | none => [])
  ++ (match ch.Image with
      | some im =>
        ["    <image>", xmlLeaf "      " "url" im.URL, xmlLeaf "      " "title" im.Title,
         xmlLeaf "      " "link" im.Link, "    </image>"]
      | none => [])
  ++ (ch.Items.map rssItemLines).flatten
  ++ ["  </channel>"]

/-- xml.MarshalIndent(rss, "", "  ") for the RSS shape. -/
def marshalRSS (r : RSS) : String :=
  String.intercalate "\n"
    (["<rss" ++ xmlAttr "version" r.Version ++ xmlAttr "xmlns:atom" r.AtomNS
        ++ xmlAttr "xmlns:content" r.Content ++ xmlAttr "xmlns:media" r.MediaNS ++ ">"]
      ++ channelLines r.Channel
      ++ ["</rss>"])

/-- Source: the struct-building body of `GenerateRSS` in feed/rss.go,
translated field for field. -/
def buildRSS (data : Data) (currentURL : String) : RSS :=
  { Version := "2.0"
    AtomNS := "http://www.w3.org/2005/Atom"
    Content := "http://purl.org/rss/1.0/modules/content/"
    MediaNS := "http://search.yahoo.com/mrss/"
    Channel :=
      { Title := data.Title
        Link := data.Link
        Description := data.Description
        Language := data.Language
        PubDate := if data.PubDate ≠ 0 then formatRFC822 data.PubDate else ""
        LastBuildDate :=
          if data.LastBuildDate ≠ 0 then formatRFC822 data.LastBuildDate
          else if data.PubDate ≠ 0 then formatRFC822 data.PubDate
          else ""
        TTL := data.TTL
        AtomLink := some
          { Href := currentURL, Rel := "self", Typ := "application/rss+xml" }
        Image :=
          if data.Image ≠ "" then
            some { URL := data.Image, Title := data.Title, Link := data.Link }
          else none
        Items := data.Item.map fun item =>
          { Title := item.Title
            Link := item.Link
            Description := item.Description
            PubDate := if item.PubDate ≠ (0 : Instant) then formatRFC822 item.PubDate else ""
            GUID := some
              { Value := if item.GUID = "" then item.Link else item.GUID
                IsPermaLink := false }
            Author := item.Author
            Category := item.Category
            Comments := item.Comments
            Enclosure :=
              if item.EnclosureURL ≠ "" then
                some { URL := item.EnclosureURL, Typ := item.EnclosureType,
                       Length := item.EnclosureLength }
              else none
            Content := if item.Description ≠ "" then some item.Description else none } } }

/-- Source: `GenerateRSS` in feed/rss.go: xml.Header plus the marshaled
struct (marshaling cannot fail on this shape, so the `error` result is
dropped).  The `now` argument is the ambient clock at the moment of the
call; the RSS body never reads it. -/
def GenerateRSS (data : Data) (currentURL : String) (_now : Instant) : String :=
  xmlHeader ++ marshalRSS (buildRSS data currentURL)

/-! ## feed/atom.go : Atom 1.0 renderer -/

/-- Source: `AtomFeedLink` in feed/atom.go. -/
structure AtomFeedLink where
  Href : String
  Rel : String
  Typ : String
deriving Repr, DecidableEq

/-- Source: `AtomAuthor` in feed/atom.go. -/
structure AtomAuthor where
  Name : String
deriving Repr, DecidableEq

/-- Source: `AtomContent` in feed/atom.go (type attribute plus CDATA
value). -/
structure AtomContent where
  Typ : String
  Value : String
deriving Repr, DecidableEq

/-- Source: `AtomCategory` in feed/atom.go. -/
structure AtomCategory where
  Term : String
deriving Repr, DecidableEq

/-- Source: `AtomEntry` in feed/atom.go (the `Summary` field is never
assigned by GenerateAtom and is omitted). -/
structure AtomEntry where
  Title : String
  Link : List AtomFeedLink
  ID : String
  Updated : String
  Content : Option AtomContent
  Author : Option AtomAuthor
  Category : List AtomCategory
deriving Repr, DecidableEq

/-- Source: `AtomFeed` in feed/atom.go. -/
structure AtomFeed where
  Xmlns : String
  Title : String
  Link : List AtomFeedLink
  Updated : String
  ID : String
  Subtitle : String
  Icon : String
  Logo : String
  Author : Option AtomAuthor
  Entries : List AtomEntry
deriving Repr, DecidableEq

/-- One Atom link element line (rel and type attributes are omitempty). -/
def atomLinkLine (ind : String) (l : AtomFeedLink) : String :=
  ind ++ "<link" ++ xmlAttr "href" l.Href
    ++ (if l.Rel ≠ "" then xmlAttr "rel" l.Rel else "")
    ++ (if l.Typ ≠ "" then xmlAttr "type" l.Typ else "")
    ++ "></link>"

/-- Author element lines. -/
def atomAuthorLines (ind : String) (a : AtomAuthor) : List String :=
  [ind ++ "<author>", xmlLeaf (ind ++ "  ") "name" a.Name, ind ++ "</author>"]

/-- encoding/xml MarshalIndent lines for one Atom entry. -/
def atomEntryLines (e : AtomEntry) : List String :=
  ["  <entry>"]
  ++ [xmlLeaf "    " "title" e.Title]
  ++ e.Link.map (atomLinkLine "    ")
  ++ [xmlLeaf "    " "id" e.ID]
  ++ [xmlLeaf "    " "updated" e.Updated]
  ++ (match e.Content with
      | some c =>
        ["    <content" ++ xmlAttr "type" c.Typ ++ ">" ++ emitCDATA c.Value ++ "</content>"]
      | none => [])
  ++ (match e.Author with
      | some a => atomAuthorLines "    " a
      | none => [])
  ++ e.Category.map (fun c => "    <category" ++ xmlAttr "term" c.Term ++ "></category>")
  ++ ["  </entry>"]

/-- xml.MarshalIndent(atom, "", "  ") for the AtomFeed shape. -/
def marshalAtom (f : AtomFeed) : String :=
  String.intercalate "\n"
    (["<feed" ++ xmlAttr "xmlns" f.Xmlns ++ ">"]
      ++ [xmlLeaf "  " "title" f.Title]
      ++ f.Link.map (atomLinkLine "  ")
      ++ [xmlLeaf "  " "updated" f.Updated]
      ++ [xmlLeaf "  " "id" f.ID]
      ++ (if f.Subtitle ≠ "" then [xmlLeaf "  " "subtitle" f.Subtitle] else [])
      ++ (if f.Icon ≠ "" then [xmlLeaf "  " "icon" f.Icon] else [])
      ++ (if f.Logo ≠ "" then [xmlLeaf "  " "logo" f.Logo] else [])
      ++ (match f.Author with
          | some a => atomAuthorLines "  " a
          | none => [])
      ++ (f.Entries.map atomEntryLines).flatten
      ++ ["</feed>"])

/-- Source: the struct-building body of `GenerateAtom` in feed/atom.go,
translated field for field.  `now` is the ambient clock: the body
substitutes `time.Now()` for a zero feed publish date and for entries with
both timestamps zero. -/
def buildAtom (data : Data) (currentURL : String) (now : Instant) : AtomFeed :=
  { Xmlns := "http://www.w3.org/2005/Atom"
    Title := data.Title
    Link :=
      [{ Href := data.Link, Rel := "alternate", Typ := "" },
       { Href := currentURL, Rel := "self", Typ := "application/atom+xml" }]
    Updated :=
      if data.PubDate ≠ (0 : Instant) then formatRFC3339 data.PubDate
      else formatRFC3339 now
    ID := data.Link
    Subtitle := data.Subtitle
    Icon := data.Icon
    Logo := data.Logo
    Author := if data.Author ≠ "" then some { Name := data.Author } else none
    Entries := data.Item.map fun item =>
      { Title := item.Title
        Link := [{ Href := item.Link, Rel := "alternate", Typ := "" }]
        ID := if item.GUID = "" then item.Link else item.GUID
        Updated :=
          if item.Updated ≠ (0 : Instant) then formatRFC3339 item.Updated
          else if item.PubDate ≠ (0 : Instant) then formatRFC3339 item.PubDate
          else formatRFC3339 now
        Content :=
          if item.Description ≠ "" then
            some { Typ := "html", Value := item.Description }
          else none
        Author := if item.Author ≠ "" then some { Name := item.Author } else none
        Category := item.Category.map fun cat => { Term := cat } } }

/-- Source: `GenerateAtom` in feed/atom.go: xml.Header plus the marshaled
struct (marshaling cannot fail on this shape, so the `error` result is
dropped). -/
def GenerateAtom (data : Data) (currentURL : String) (now : Instant) : String :=
  xmlHeader ++ marshalAtom (buildAtom data currentURL now)

/-! ## feed/json.go : JSON Feed 1.1 renderer -/

/-- Source: `JSONAuthor` in feed/json.go. -/
structure JSONAuthor where
  Name : String
  URL : String
deriving Repr, DecidableEq

/-- Source: `JSONAttachment` in feed/json.go. -/
structure JSONAttachment where
  URL : String
  MIMEType : String
  SizeInBytes : Int
deriving Repr, DecidableEq

/-- Source: `JSONItem` in feed/json.go. -/
structure JSONItem where
  ID : String
  URL : String
  Title : String
  ContentHTML : String
  ContentText : String
  Summary : String
  DatePublished : String
  DateModified : String
  Authors : List JSONAuthor
  Tags : List String
  Attachments : List JSONAttachment
deriving Repr, DecidableEq

/-- Source: `JSONFeed` in feed/json.go. -/
structure JSONFeed where
  Version : String
  Title : String
  HomePageURL : String
  FeedURL : String
  Description : String
  Icon : String
  Favicon : String
  Language : String
  Authors : List JSONAuthor
  Items : List JSONItem
deriving Repr, DecidableEq

/-- One lowercase hex digit. -/
def hexDigit (n : Nat) : String :=
  ["0", "1", "2", "3", "4", "5", "6", "7", "8", "9",
   "a", "b", "c", "d", "e", "f"].getD n "?"

/-- encoding/json string escaping (HTML escaping on, the json.Marshal
default). -/
def jsonEscapeChar (c : Char) : String :=
  if c = '"' then "\\\""
  else if c = '\\' then "\\\\"
  else if c = '\n' then "\\n"
  else if c = '\r' then "\\r"
  else if c = '\t' then "\\t"
  else if c = '<' then "\\u003c"
  else if c = '>' then "\\u003e"
  else if c = '&' then "\\u0026"
  else if c.toNat < 32 then "\\u00" ++ hexDigit (c.toNat / 16) ++ hexDigit (c.toNat % 16)
  else if c.toNat = 0x2028 then "\\u2028"
  else if c.toNat = 0x2029 then "\\u2029"
  else String.singleton c

/-- A JSON string literal. -/
def jsonStr (s : String) : String :=
  "\"" ++ String.join (s.toList.map jsonEscapeChar) ++ "\""

/-- One object field at the given indentation. -/
def jsonField (ind name val : String) : String :=
  ind ++ "\"" ++ name ++ "\": " ++ val

/-- A MarshalIndent array block whose closing bracket sits at `ind`;
element blocks are emitted two spaces deeper. -/
def jsonArrBlock (ind : String) (blocks : List String) : String :=
  match blocks with
  | [] => "[]"
  | bs =>
    "[\n" ++ String.intercalate ",\n" (bs.map (fun b => ind ++ "  " ++ b)) ++ "\n" ++ ind ++ "]"

/-- A MarshalIndent object block from its (already indented) field lines;
the closing brace sits at `ind`. -/
def jsonObjBlock (ind : String) (fields : List String) : String :=
  match fields with
  | [] => "\x7b\x7d"
  | fs => "\x7b\n" ++ String.intercalate ",\n" fs ++ "\n" ++ ind ++ "\x7d"

/-- Author object block. -/
def jsonAuthorBlock (ind : String) (a : JSONAuthor) : String :=
  jsonObjBlock ind
    ((if a.Name ≠ "" then [jsonField (ind ++ "  ") "name" (jsonStr a.Name)] else [])
      ++ (if a.URL ≠ "" then [jsonField (ind ++ "  ") "url" (jsonStr a.URL)] else []))

/-- Attachment object block. -/
def jsonAttachmentBlock (ind : String) (at_ : JSONAttachment) : String :=
  jsonObjBlock ind
    ([jsonField (ind ++ "  ") "url" (jsonStr at_.URL),
      jsonField (ind ++ "  ") "mime_type" (jsonStr at_.MIMEType)]
      ++ (if at_.SizeInBytes ≠ 0 then
            [jsonField (ind ++ "  ") "size_in_bytes" (toString at_.SizeInBytes)]
          else []))

/-- Item object block. -/
def jsonItemBlock (ind : String) (it : JSONItem) : String :=
  let f := ind ++ "  "
  jsonObjBlock ind
    ([jsonField f "id" (jsonStr it.ID)]
      ++ (if it.URL ≠ "" then [jsonField f "url" (jsonStr it.URL)] else [])
      ++ (if it.Title ≠ "" then [jsonField f "title" (jsonStr it.Title)] else [])
      ++ (if it.ContentHTML ≠ "" then
            [jsonField f "content_html" (jsonStr it.ContentHTML)] else [])
      ++ (if it.ContentText ≠ "" then
            [jsonField f "content_text" (jsonStr it.ContentText)] else [])
      ++ (if it.Summary ≠ "" then [jsonField f "summary" (jsonStr it.Summary)] else [])
      ++ (if it.DatePublished ≠ "" then
            [jsonField f "date_published" (jsonStr it.DatePublished)] else [])
      ++ (if it.DateModified ≠ "" then
            [jsonField f "date_modified" (jsonStr it.DateModified)] else [])
      ++ (if ! it.Authors.isEmpty then
            [jsonField f "authors" (jsonArrBlock f (it.Authors.map (jsonAuthorBlock (f ++ "  "))))]
          else [])
      ++ (if ! it.Tags.isEmpty then
            [jsonField f "tags" (jsonArrBlock f (it.Tags.map jsonStr))] else [])
      ++ (if ! it.Attachments.isEmpty then
            [jsonField f "attachments"
              (jsonArrBlock f (it.Attachments.map (jsonAttachmentBlock (f ++ "  "))))]
          else []))

/-- json.MarshalIndent(feed, "", "  ") for the JSONFeed shape.  The `items`
field has no omitempty and the builder always allocates the slice, so an
empty feed still carries an empty array. -/
def marshalJSONFeed (feed : JSONFeed) : String :=
  jsonObjBlock ""
    ([jsonField "  " "version" (jsonStr feed.Version),
      jsonField "  " "title" (jsonStr feed.Title)]
      ++ (if feed.HomePageURL ≠ "" then
            [jsonField "  " "home_page_url" (jsonStr feed.HomePageURL)] else [])
      ++ (if feed.FeedURL ≠ "" then [jsonField "  " "feed_url" (jsonStr feed.FeedURL)] else [])
      ++ (if feed.Description ≠ "" then
            [jsonField "  " "description" (jsonStr feed.Description)] else [])
      ++ (if feed.Icon ≠ "" then [jsonField "  " "icon" (jsonStr feed.Icon)] else [])
      ++ (if feed.Favicon ≠ "" then [jsonField "  " "favicon" (jsonStr feed.Favicon)] else [])
      ++ (if feed.Language ≠ "" then [jsonField "  " "language" (jsonStr feed.Language)] else [])
      ++ (if ! feed.Authors.isEmpty then
            [jsonField "  " "authors" (jsonArrBlock "  " (feed.Authors.map (jsonAuthorBlock "    ")))]
          else [])
      ++ [jsonField "  " "items" (jsonArrBlock "  " (feed.Items.map (jsonItemBlock "    ")))])

/-- Source: the struct-building body of `GenerateJSON` in feed/json.go,
translated field for field. -/
def buildJSONFeed (data : Data) (currentURL : String) : JSONFeed :=
  { Version := "https://jsonfeed.org/version/1.1"
    Title := data.Title
    HomePageURL := data.Link
    FeedURL := currentURL
    Description := data.Description
    Icon := data.Icon
    Favicon := ""
    Language := data.Language
    Authors := if data.Author ≠ "" then [{ Name := data.Author, URL := "" }] else []
    Items := data.Item.map fun item =>
      { ID := if item.GUID = "" then item.Link else item.GUID
        URL := item.Link
        Title := item.Title
        ContentHTML := item.Description
        ContentText := ""
        Summary := ""
        DatePublished := if item.PubDate ≠ (0 : Instant) then formatRFC3339 item.PubDate else ""
        DateModified := if item.Updated ≠ (0 : Instant) then formatRFC3339 item.Updated else ""
        Authors := if item.Author ≠ "" then [{ Name := item.Author, URL := "" }] else []
        Tags := if ! item.Category.isEmpty then item.Category else []
        Attachments :=
          if item.EnclosureURL ≠ "" then
            [{ URL := item.EnclosureURL, MIMEType := item.EnclosureType,
               SizeInBytes := item.EnclosureLength }]
          else [] } }

/-- Source: `GenerateJSON` in feed/json.go: the marshaled struct, with no
XML header (marshaling cannot fail on this shape, so the `error` result is
dropped).  The `now` argument is the ambient clock at the moment of the
call; the JSON body never reads it. -/
def GenerateJSON (data : Data) (currentURL : String) (_now : Instant) : String :=
  marshalJSONFeed (buildJSONFeed data currentURL)

/-! ## Claim theorems for the renderers -/

/-- A feed document whose publish date and entry timestamps are all zero:
GenerateAtom substitutes the current clock for them. -/
def zdoc : Data :=
  { Title := "T", Link := "https://site", Description := "D", Language := "",
    PubDate := 0, LastBuildDate := 0, TTL := 0, AllowEmpty := false,
    Item := [mkItem "E" "d" 0],
    Author := "", Image := "", Icon := "", Logo := "", Subtitle := "" }

/-- A feed document with every timestamp non-zero. -/
def wdoc : Data :=
  { Title := "T", Link := "https://site", Description := "D", Language := "en",
    PubDate := 1009872345, LastBuildDate := 0, TTL := 0, AllowEmpty := false,
    Item := [mkItem "E" "d" 1009872345],
    Author := "A", Image := "", Icon := "", Logo := "", Subtitle := "" }

/-- A feed document with one GUID-less entry whose link is https://x/1. -/
def c6doc : Data :=
  { Title := "T", Link := "https://site", Description := "D", Language := "",
    PubDate := 1009872345, LastBuildDate := 0, TTL := 0, AllowEmpty := false,
    Item := [{ Title := "E1", Link := "https://x/1", Description := "body",
               PubDate := 1009872345, Updated := 0, Author := "", Category := [],
               GUID := "", Comments := "", EnclosureURL := "", EnclosureType := "",
               EnclosureLength := 0 }],
    Author := "", Image := "", Icon := "", Logo := "", Subtitle := "" }

theorem buildAtom_now_indep (data : Data) (url : String) (t1 t2 : Instant)
    (hpd : data.PubDate ≠ 0)
    (hit : ∀ item ∈ data.Item, item.Updated ≠ 0 ∨ item.PubDate ≠ 0) :
    buildAtom data url t1 = buildAtom data url t2 := by
  unfold buildAtom
  rw [if_pos hpd, if_pos hpd]
  congr 1
  apply List.map_congr_left
  intro item hmem
  rcases hit item hmem with h | h
  · rw [if_pos h, if_pos h]
  · by_cases hu : item.Updated ≠ (0 : Instant)
    · rw [if_pos hu, if_pos hu]
    · rw [if_neg hu, if_neg hu, if_pos h, if_pos h]

/-- C5 counterexample: GenerateAtom is not deterministic across times.  On a
document whose publish date and entry timestamps are zero, the Atom body
substitutes the current clock, so two invocations at different times
produce different bytes. -/
theorem claim_C5_counterexample :
    GenerateAtom zdoc "https://site/feed" 1 ≠ GenerateAtom zdoc "https://site/feed" 2 := by
  decide

/-- C5 (amended): GenerateRSS and GenerateJSON are deterministic and
idempotent for every document and URL — two invocations at any two times
are byte-identical; GenerateAtom is deterministic provided the document's
publish date is non-zero and every entry has a non-zero Updated or PubDate
(otherwise the current clock is substituted and output varies with time). -/
theorem claim_C5_amended (data : Data) (url : String) (t1 t2 : Instant) :
    GenerateRSS data url t1 = GenerateRSS data url t2 ∧
    GenerateJSON data url t1 = GenerateJSON data url t2 ∧
    (data.PubDate ≠ 0 →
      (∀ item ∈ data.Item, item.Updated ≠ 0 ∨ item.PubDate ≠ 0) →
      GenerateAtom data url t1 = GenerateAtom data url t2) := by
  refine ⟨rfl, rfl, ?_⟩
  intro hpd hit
  unfold GenerateAtom
  rw [buildAtom_now_indep data url t1 t2 hpd hit]

/-- C5 witness: all three renderers agree across two distinct clock values
on a document with non-zero timestamps. -/
theorem claim_C5_witness :
    GenerateRSS wdoc "https://site/feed" 0 = GenerateRSS wdoc "https://site/feed" 99 ∧
    GenerateJSON wdoc "https://site/feed" 0 = GenerateJSON wdoc "https://site/feed" 99 ∧
    GenerateAtom wdoc "https://site/feed" 0 = GenerateAtom wdoc "https://site/feed" 99 :=
  ⟨(claim_C5_amended wdoc "https://site/feed" 0 99).1,
   (claim_C5_amended wdoc "https://site/feed" 0 99).2.1,
   (claim_C5_amended wdoc "https://site/feed" 0 99).2.2 (by decide) (by decide)⟩

/-- C6: for every document, a GUID-less entry is rendered with its link as
the identifier by all three builders, and on the concrete document with
entry link https://x/1 the rendered RSS output contains the guid element,
the Atom output the id element, and the JSON output the id member, all
equal to https://x/1. -/
theorem claim_C6_guid_falls_back_to_link :
    (∀ (data : Data) (url : String) (now : Instant) (item : Item),
      item ∈ data.Item → item.GUID = "" →
      (∃ ri ∈ (buildRSS data url).Channel.Items,
        ri.GUID = some { Value := item.Link, IsPermaLink := false }) ∧
      (∃ ae ∈ (buildAtom data url now).Entries, ae.ID = item.Link) ∧
      (∃ ji ∈ (buildJSONFeed data url).Items, ji.ID = item.Link)) ∧
    occursIn "<guid>https://x/1</guid>".toList
      (GenerateRSS c6doc "https://site/feed" 5).toList = true ∧
    occursIn "<id>https://x/1</id>".toList
      (GenerateAtom c6doc "https://site/feed" 5).toList = true ∧
    occursIn "\"id\": \"https://x/1\"".toList
      (GenerateJSON c6doc "https://site/feed" 5).toList = true := by
  refine ⟨?_, by decide, by decide, by decide⟩
  intro data url now item hmem hguid
  refine ⟨⟨_, List.mem_map.2 ⟨item, hmem, rfl⟩, ?_⟩,
          ⟨_, List.mem_map.2 ⟨item, hmem, rfl⟩, ?_⟩,
          ⟨_, List.mem_map.2 ⟨item, hmem, rfl⟩, ?_⟩⟩
  · simp [buildRSS, hguid]
  · simp [buildAtom, hguid]
  · simp [buildJSONFeed, hguid]

/-- C6 witness: the universal fallback applied to the concrete document's
GUID-less entry. -/
theorem claim_C6_witness :
    (∃ ri ∈ (buildRSS c6doc "https://site/feed").Channel.Items,
      ri.GUID = some { Value := "https://x/1", IsPermaLink := false }) ∧
    (∃ ae ∈ (buildAtom c6doc "https://site/feed" 5).Entries, ae.ID = "https://x/1") ∧
    (∃ ji ∈ (buildJSONFeed c6doc "https://site/feed").Items, ji.ID = "https://x/1") :=
  claim_C6_guid_falls_back_to_link.1 c6doc "https://site/feed" 5
    { Title := "E1", Link := "https://x/1", Description := "body",
      PubDate := 1009872345, Updated := 0, Author := "", Category := [],
      GUID := "", Comments := "", EnclosureURL := "", EnclosureType := "",
      EnclosureLength := 0 }
    (by decide) (by decide)

/-! ## The middleware pipeline

The gin engine is a collaborator outside this repository.  Modelled from
the spec: "Each stage is a function taking the rest of the chain as a
continuation; a stage may run logic before invoking the continuation,
invoke it exactly once or not at all (aborting short-circuits remaining
stages and the Handler), and run logic after the continuation returns"
(spec section 4.3).  Each stage's own body below is translated from its
middleware source file.  The Logger stage only logs, and AccessControl with
no access key configured invokes the continuation unconditionally
(access_control.go), so neither is modelled.  `handlerRuns` is a ghost
counter of route-handler executions. -/

/-- An inbound request: method, host, path, the raw query string as sent,
and the parsed query parameters the pipeline reads (empty string means
absent).  `format` is the format parameter; the transform parameters and
`limit` live in `query`. -/
structure HttpRequest where
  method : String
  host : String
  path : String
  rawQuery : String
  format : String
  query : QueryParams
  ifNoneMatch : String
deriving Repr, DecidableEq

/-- Response state of gin's writer: status (default 200), accumulated body
bytes, response headers, and the abort flag. -/
structure Response where
  status : Nat
  body : String
  headers : List (String × String)
  aborted : Bool
deriving Repr, DecidableEq

/-- Header().Set. -/
def setH : List (String × String) → String → String → List (String × String)
  | [], k, v => [(k, v)]
  | (k0, v0) :: rest, k, v =>
    if k0 = k then (k, v) :: rest else (k0, v0) :: setH rest k v

/-- Header().Get: the empty string when absent, as net/http does. -/
def getH : List (String × String) → String → String
  | [], _ => ""
  | (k0, v0) :: rest, k => if k0 = k then v0 else getH rest k

/-- The per-request context threaded through the chain. -/
structure Ctx where
  req : HttpRequest
  res : Response
  data : Option Data
  handlerRuns : Nat
deriving Repr, DecidableEq

/-- A fresh context for a request (gin's writer starts at status 200 with
nothing written). -/
def mkCtx (req : HttpRequest) : Ctx :=
  { req := req, res := { status := 200, body := "", headers := [], aborted := false },
    data := none, handlerRuns := 0 }

/-- A stage wraps the rest of the chain. -/
abbrev Stage := (Ctx → Ctx) → Ctx → Ctx

/-- The gin.H error body written by c.JSON(status, gin.H(error/message)). -/
def errorJSON (msg : String) : String :=
  "\x7b\"error\":\x7b\"message\":\"" ++ msg ++ "\"\x7d\x7d"

/-- Source: `wrapHandler` in routes/registry/registry.go: run the route
handler; on error write a 500 JSON body and abort; on success store the
FeedDocument in the context for the Template middleware. -/
def wrapHandler (h : HttpRequest → Except String Data) : Ctx → Ctx := fun c =>
  let c := { c with handlerRuns := c.handlerRuns + 1 }
  match h c.req with
  | .error msg =>
    { c with res := { c.res with
        status := 500
        body := c.res.body ++ errorJSON msg
        aborted := true } }
  | .ok d => { c with data := some d }

/-- c.Request.URL.String() prefixed with scheme and host as template.go
computes currentURL (no TLS, host non-empty). -/
def currentURLOf (req : HttpRequest) : String :=
  "http://" ++ req.host ++ req.path ++
    (if req.rawQuery ≠ "" then "?" ++ req.rawQuery else "")

/-- c.DefaultQuery("format", "rss"). -/
def formatOf (req : HttpRequest) : String :=
  if req.format = "" then "rss" else req.format

/-- Source: `getContentType` in middleware/cache.go. -/
def getContentType (format : String) : String :=
  match format with
  | "atom" => "application/atom+xml; charset=utf-8"
  | "json" => "application/json; charset=utf-8"
  | _ => "application/rss+xml; charset=utf-8"

/-- The renderer selected by format, as template.go's switch (rss is the
fallthrough default). -/
def renderFormat (format : String) (d : Data) (currentURL : String) (now : Instant) : String :=
  match format with
  | "atom" => GenerateAtom d currentURL now
  | "json" => GenerateJSON d currentURL now
  | _ => GenerateRSS d currentURL now

/-- The content-type switch inside template.go (textually separate from
cache.go's getContentType, with the same cases). -/
def templateContentType (format : String) : String :=
  match format with
  | "atom" => "application/atom+xml; charset=utf-8"
  | "json" => "application/json; charset=utf-8"
  | _ => "application/rss+xml; charset=utf-8"

/-- Source: `Template` in middleware/template.go: run the rest first; if a
FeedDocument was stored, render it by format and write the body with
status 200 (the renderers of this shape cannot fail, so the 500 branch is
unreachable). -/
def Template (now : Instant) : Stage := fun next c0 =>
  let c := next c0
  match c.data with
  | none => c
  | some d =>
    let format := formatOf c.req
    let currentURL := currentURLOf c.req
    let output := renderFormat format d currentURL now
    { c with res := { c.res with
        status := 200
        body := c.res.body ++ output
        headers := setH c.res.headers "Content-Type" (templateContentType format) } }

/-- Source: `Parameter` in middleware/parameter.go: run the rest first,
then filter/sort/limit the stored FeedDocument's entries in place. -/
def Parameter (compile : RegexEngine) (now : Instant) : Stage := fun next c0 =>
  let c := next c0
  match c.data with
  | none => c
  | some d =>
    { c with data := some { d with Item := applyTransforms compile c.req.query d.Item now } }

/-- Source: `Header` in feed/atom.go (the Header middleware): set CORS
headers, short-circuit OPTIONS with 204, and after the continuation, on a
200 response, read the body from the X-Response-Body response header to
derive an ETag, answer 304 on an If-None-Match match, and set
Cache-Control.  `etagOf` stands for the sha256 content hash and
`allowOrigin`, `routeExpireSeconds` for the configuration values. -/
def Header (allowOrigin : String) (routeExpireSeconds : Int)
    (etagOf : String → String) : Stage := fun next c0 =>
  let hs := setH (setH (setH c0.res.headers
    "Access-Control-Allow-Origin" allowOrigin)
    "Access-Control-Allow-Methods" "GET, POST, OPTIONS")
    "Access-Control-Allow-Headers" "Content-Type"
  let c1 := { c0 with res := { c0.res with headers := hs } }
  if c1.req.method = "OPTIONS" then
    { c1 with res := { c1.res with status := 204, aborted := true } }
  else
    let c2 := next c1
    if c2.res.status = 200 then
      let body := getH c2.res.headers "X-Response-Body"
      if body ≠ "" then
        let etag := etagOf body
        let c3 := { c2 with res := { c2.res with headers := setH c2.res.headers "ETag" etag } }
        if c3.req.ifNoneMatch = etag then
          { c3 with res := { c3.res with status := 304, aborted := true } }
        else
          { c3 with res := { c3.res with
              headers := setH c3.res.headers "Cache-Control"
                ("public, max-age=" ++ toString routeExpireSeconds) } }
      else
        { c2 with res := { c2.res with
            headers := setH c2.res.headers "Cache-Control"
              ("public, max-age=" ++ toString routeExpireSeconds) } }
    else c2

/-- The singleflight outcome for one caller of sf.Do on a given key: the
leader executes the compute function; a follower blocks and receives the
leader's result. -/
inductive SfOutcome where
  | leader
  | follower (shared : String)
deriving Repr, DecidableEq

/-- Source: `Cache` in middleware/cache.go with caching disabled
(config.C.Cache.Type empty): straight to the rest of the chain. -/
def CacheDisabled : Stage := fun next c => next c

/-- The tail of `GenerateRSS`-captured bytes: the response writer wrapper
records exactly the bytes written during the compute function. -/
def stringDropPrefix (s : String) (n : Nat) : String :=
  String.mk (s.toList.drop n)

/-- Source: `Cache` in middleware/cache.go with caching enabled.  The cache
key is grss:cache: followed by the sha256 digest (dig) of path:format:limit.
On a store hit the cached bytes are written and the chain aborted.  On a
miss, sf.Do runs the continuation for the leader only, capturing the bytes
it writes; every caller then runs the post-Do code, which only sets the
GRSS-Cache-Status header — the shared result is never written to a
follower's response.  The fire-and-forget background store write is
dispatched after the leader's compute function and never touches the
response. -/
def Cache (dig : String → String) (store : List (String × String))
    (sf : SfOutcome) : Stage := fun next c =>
  let format := formatOf c.req
  let keyData := c.req.path ++ ":" ++ format ++ ":" ++ c.req.query.limit
  let cacheKey := "grss:cache:" ++ dig keyData
  let cached := getH store cacheKey
  if cached ≠ "" then
    { c with res := { c.res with
        status := 200
        body := c.res.body ++ cached
        headers := setH (setH c.res.headers "GRSS-Cache-Status" "HIT")
          "Content-Type" (getContentType format)
        aborted := true } }
  else
    match sf with
    | .leader =>
      let c2 := next c
      let response := stringDropPrefix c2.res.body c.res.body.length
      if response ≠ "" ∧ c2.res.status = 200 then
        { c2 with res := { c2.res with
            headers := setH c2.res.headers "GRSS-Cache-Status" "MISS" } }
      else c2
    | .follower shared =>
      if shared ≠ "" ∧ c.res.status = 200 then
        { c with res := { c.res with
            headers := setH c.res.headers "GRSS-Cache-Status" "MISS" } }
      else c

/-- The feed-route chain with caching disabled, in the main.go registration
order relevant here: Parameter wraps Cache wraps Template wraps the
handler. -/
def runPipelineNoCache (compile : RegexEngine) (h : HttpRequest → Except String Data)
    (now : Instant) (req : HttpRequest) : Ctx :=
  Parameter compile now (CacheDisabled (Template now (wrapHandler h))) (mkCtx req)

/-- The same chain with the Header stage outermost. -/
def runPipelineWithHeader (allowOrigin : String) (routeExpireSeconds : Int)
    (etagOf : String → String) (compile : RegexEngine)
    (h : HttpRequest → Except String Data) (now : Instant) (req : HttpRequest) : Ctx :=
  Header allowOrigin routeExpireSeconds etagOf
    (Parameter compile now (CacheDisabled (Template now (wrapHandler h)))) (mkCtx req)

/-- The chain with caching enabled. -/
def runPipelineCached (dig : String → String) (store : List (String × String))
    (sf : SfOutcome) (compile : RegexEngine) (h : HttpRequest → Except String Data)
    (now : Instant) (req : HttpRequest) : Ctx :=
  Parameter compile now (Cache dig store sf (Template now (wrapHandler h))) (mkCtx req)

theorem string_empty_append (s : String) : "" ++ s = s := by
  cases s
  rfl

/-- What the Parameter-Cache(disabled)-Template-handler subchain does to a
context whose handler succeeds: the body written is the rendering of the
handler's untransformed document at the request's own URL, the stored
document is mutated by the transforms only afterward, and the handler ran
once. -/
theorem innerChain_spec (compile : RegexEngine) (h : HttpRequest → Except String Data)
    (now : Instant) (c0 : Ctx) (d : Data)
    (hok : h c0.req = .ok d) :
    Parameter compile now (CacheDisabled (Template now (wrapHandler h))) c0
      = { c0 with
          res := { c0.res with
            status := 200
            body := c0.res.body ++ renderFormat (formatOf c0.req) d (currentURLOf c0.req) now
            headers := setH c0.res.headers "Content-Type"
              (templateContentType (formatOf c0.req)) }
          data := some { d with Item := applyTransforms compile c0.req.query d.Item now }
          handlerRuns := c0.handlerRuns + 1 } := by
  simp [Parameter, CacheDisabled, Template, wrapHandler, hok]

theorem getH_setH_ne {hs : List (String × String)} {k k' v : String} (hne : k' ≠ k) :
    getH (setH hs k v) k' = getH hs k' := by
  have h1 : ¬ k = k' := fun h => hne h.symm
  induction hs with
  | nil => simp [setH, getH, h1]
  | cons p rest ih =>
    obtain ⟨k0, v0⟩ := p
    by_cases h0 : k0 = k
    · have h2 : ¬ k0 = k' := by rw [h0]; exact h1
      simp [setH, getH, h0, h1, h2]
    · by_cases h2 : k0 = k'
      · simp [setH, getH, h0, h2, hne]
      · simp [setH, getH, h0, h2, ih]

theorem getH_setH_same (hs : List (String × String)) (k v : String) :
    getH (setH hs k v) k = v := by
  induction hs with
  | nil => simp [setH, getH]
  | cons p rest ih =>
    obtain ⟨k0, v0⟩ := p
    by_cases h0 : k0 = k
    · simp [setH, getH, h0]
    · simp [setH, getH, h0, ih]

/-! ## Claim theorems for the pipeline -/

/-- A request to /ns/route whose only varying query parameter is filter. -/
def c4req (f : String) : HttpRequest :=
  { method := "GET", host := "example.org", path := "/ns/route",
    rawQuery := "filter=" ++ f, format := "",
    query := { noParams with filter := f }, ifNoneMatch := "" }

/-- The document the C4 route handler returns. -/
def c4doc : Data :=
  { Title := "T", Link := "https://site", Description := "D", Language := "",
    PubDate := 1009872345, LastBuildDate := 0, TTL := 0, AllowEmpty := false,
    Item := [mkItem "A" "d" 1009872345],
    Author := "", Image := "", Icon := "", Logo := "", Subtitle := "" }

/-- The C4 route handler. -/
def c4h : HttpRequest → Except String Data := fun _ => .ok c4doc

/-- C4 counterexample: two requests identical except in their filter query
parameter do NOT receive identical bodies — the rendered output embeds the
request's own URL (self-referencing atom:link), which includes the query
string, so the bytes differ even though the transform itself has no effect
on the rendered entries. -/
theorem claim_C4_counterexample :
    (runPipelineNoCache goRegexModel c4h 0 (c4req "a")).res.body
      ≠ (runPipelineNoCache goRegexModel c4h 0 (c4req "b")).res.body ∧
    (runPipelineNoCache goRegexModel c4h 0 (c4req "a")).res.status = 200 ∧
    (runPipelineNoCache goRegexModel c4h 0 (c4req "b")).res.status = 200 ∧
    (c4req "a").path = (c4req "b").path ∧
    (c4req "a").format = (c4req "b").format ∧
    (c4req "a").query.limit = (c4req "b").query.limit := by
  refine ⟨?_, by decide, by decide, by decide, by decide, by decide⟩
  decide

/-- C4 (amended): the ParameterTransform stage's filter/sort/limit mutation
of the FeedDocument occurs only after the Template stage has already
serialized and written the response: the body sent is always the rendering
of the handler's untransformed document at the request's own URL, so the
transform parameters never influence which entries are rendered — two
requests identical except in their transform parameters receive renderings
of the same untransformed document, differing only through the
self-referencing URL that embeds each request's own query string. -/
theorem claim_C4_amended (compile : RegexEngine) (h : HttpRequest → Except String Data)
    (now : Instant) (req : HttpRequest) (d : Data) (hok : h req = .ok d) :
    (runPipelineNoCache compile h now req).res.body
      = renderFormat (formatOf req) d (currentURLOf req) now ∧
    (runPipelineNoCache compile h now req).data
      = some { d with Item := applyTransforms compile req.query d.Item now } ∧
    (runPipelineNoCache compile h now req).res.status = 200 ∧
    (runPipelineNoCache compile h now req).handlerRuns = 1 := by
  have hspec := innerChain_spec compile h now (mkCtx req) d hok
  rw [runPipelineNoCache, hspec]
  refine ⟨?_, rfl, rfl, rfl⟩
  exact string_empty_append _

/-- C4 witness: the amended theorem at the concrete request with filter=a. -/
theorem claim_C4_witness :
    (runPipelineNoCache goRegexModel c4h 0 (c4req "a")).res.body
      = renderFormat (formatOf (c4req "a")) c4doc (currentURLOf (c4req "a")) 0 ∧
    (runPipelineNoCache goRegexModel c4h 0 (c4req "a")).data
      = some { c4doc with
          Item := applyTransforms goRegexModel (c4req "a").query c4doc.Item 0 } ∧
    (runPipelineNoCache goRegexModel c4h 0 (c4req "a")).res.status = 200 ∧
    (runPipelineNoCache goRegexModel c4h 0 (c4req "a")).handlerRuns = 1 :=
  claim_C4_amended goRegexModel c4h 0 (c4req "a") c4doc (by rfl)

/-- C9: the ResponseHeaders stage short-circuits OPTIONS with 204 before
the inner chain runs, and on every successful non-OPTIONS request it sets
Cache-Control to public, max-age=routeExpireSeconds — but it never sets an
ETag and never answers 304, whatever If-None-Match carries, because the
body it hashes is read from the X-Response-Body response header, which no
stage of the pipeline ever sets. -/
theorem claim_C9_etag_is_dead_code (allowOrigin : String) (routeExpireSeconds : Int)
    (etagOf : String → String) (compile : RegexEngine)
    (h : HttpRequest → Except String Data) (now : Instant) (req : HttpRequest) (d : Data) :
    (req.method = "OPTIONS" →
      (runPipelineWithHeader allowOrigin routeExpireSeconds etagOf compile h now req).res.status
          = 204 ∧
      (runPipelineWithHeader allowOrigin routeExpireSeconds etagOf compile h now req).res.aborted
          = true ∧
      (runPipelineWithHeader allowOrigin routeExpireSeconds etagOf compile h now req).handlerRuns
          = 0) ∧
    (req.method ≠ "OPTIONS" → h req = .ok d →
      (runPipelineWithHeader allowOrigin routeExpireSeconds etagOf compile h now req).res.status
          = 200 ∧
      getH (runPipelineWithHeader allowOrigin routeExpireSeconds etagOf compile h now req).res.headers
          "ETag" = "" ∧
      getH (runPipelineWithHeader allowOrigin routeExpireSeconds etagOf compile h now req).res.headers
          "Cache-Control" = "public, max-age=" ++ toString routeExpireSeconds) := by
  constructor
  · intro hopt
    simp [runPipelineWithHeader, Header, mkCtx, hopt]
  · intro hopt hok
    simp only [runPipelineWithHeader, Header, mkCtx]
    rw [if_neg (by simpa using hopt)]
    rw [innerChain_spec compile h now _ d hok]
    simp [getH, getH_setH_ne, getH_setH_same]

/-- C9 witness: a GET request whose If-None-Match equals the hash of the
actual rendered body still receives 200 with no ETag; OPTIONS gets 204
without running the handler. -/
theorem claim_C9_witness :
    ((runPipelineWithHeader "*" 300 (fun s => "\"" ++ s ++ "\"") goRegexModel c4h 0
        { c4req "a" with
          ifNoneMatch := "\"" ++ renderFormat (formatOf (c4req "a")) c4doc
            (currentURLOf (c4req "a")) 0 ++ "\"" }).res.status = 200 ∧
      getH (runPipelineWithHeader "*" 300 (fun s => "\"" ++ s ++ "\"") goRegexModel c4h 0
        { c4req "a" with
          ifNoneMatch := "\"" ++ renderFormat (formatOf (c4req "a")) c4doc
            (currentURLOf (c4req "a")) 0 ++ "\"" }).res.headers "ETag" = "" ∧
      getH (runPipelineWithHeader "*" 300 (fun s => "\"" ++ s ++ "\"") goRegexModel c4h 0
        { c4req "a" with
          ifNoneMatch := "\"" ++ renderFormat (formatOf (c4req "a")) c4doc
            (currentURLOf (c4req "a")) 0 ++ "\"" }).res.headers "Cache-Control"
        = "public, max-age=" ++ toString (300 : Int)) ∧
    ((runPipelineWithHeader "*" 300 (fun s => "\"" ++ s ++ "\"") goRegexModel c4h 0
        { c4req "a" with method := "OPTIONS" }).res.status = 204 ∧
      (runPipelineWithHeader "*" 300 (fun s => "\"" ++ s ++ "\"") goRegexModel c4h 0
        { c4req "a" with method := "OPTIONS" }).res.aborted = true ∧
      (runPipelineWithHeader "*" 300 (fun s => "\"" ++ s ++ "\"") goRegexModel c4h 0
        { c4req "a" with method := "OPTIONS" }).handlerRuns = 0) :=
  ⟨(claim_C9_etag_is_dead_code "*" 300 (fun s => "\"" ++ s ++ "\"") goRegexModel c4h 0
      { c4req "a" with
        ifNoneMatch := "\"" ++ renderFormat (formatOf (c4req "a")) c4doc
          (currentURLOf (c4req "a")) 0 ++ "\"" } c4doc).2 (by decide) (by rfl),
   (claim_C9_etag_is_dead_code "*" 300 (fun s => "\"" ++ s ++ "\"") goRegexModel c4h 0
      { c4req "a" with method := "OPTIONS" } c4doc).1 (by rfl)⟩

/-- The request of the C3 scenario: /ns/route?limit=5. -/
def c3req : HttpRequest :=
  { method := "GET", host := "example.org", path := "/ns/route",
    rawQuery := "limit=5", format := "",
    query := { noParams with limit := "5" }, ifNoneMatch := "" }

/-- The C3 route handler's document. -/
def c3doc : Data :=
  { Title := "T", Link := "https://site", Description := "D", Language := "",
    PubDate := 1009872345, LastBuildDate := 0, TTL := 0, AllowEmpty := false,
    Item := [mkItem "A" "d" 1009872345],
    Author := "", Image := "", Icon := "", Logo := "", Subtitle := "" }

/-- The C3 route handler. -/
def c3h : HttpRequest → Except String Data := fun _ => .ok c3doc

/-- The leader of the coalescing group: cache empty, computation runs. -/
def c3leader : Ctx :=
  runPipelineCached (fun s => s) [] SfOutcome.leader goRegexModel c3h 0 c3req

/-- A follower that raced past the same miss while the leader's computation
was outstanding and receives the leader's result from sf.Do. -/
def c3follower : Ctx :=
  runPipelineCached (fun s => s) [] (SfOutcome.follower c3leader.res.body)
    goRegexModel c3h 0 c3req

/-- C3 evaluated at the failing input: the leader's run writes a non-empty
200 body and executes the handler once, but the follower — whose sf.Do call
returned that very body — writes nothing: the post-Do code only sets the
GRSS-Cache-Status header and discards the shared result, so the follower's
response body is empty and not byte-identical to the leader's, and the
follower never received the single execution's bytes. -/
theorem claim_C3_follower_response_dropped :
    c3leader.res.status = 200 ∧
    c3leader.res.body ≠ "" ∧
    c3leader.handlerRuns = 1 ∧
    getH c3leader.res.headers "GRSS-Cache-Status" = "MISS" ∧
    c3follower.res.status = 200 ∧
    c3follower.res.body = "" ∧
    c3follower.handlerRuns = 0 ∧
    c3follower.res.body ≠ c3leader.res.body ∧
    getH c3follower.res.headers "GRSS-Cache-Status" = "MISS" := by
  decide

end Grss
